import Mathlib

/-!
Verification development for the PawShionista live-selling shop manager.

The definitions below are a shallow embedding of the TypeScript sources:
  * src/types.ts                  (data model)
  * src/services/dbService.ts     (entity store: addOrder, updateOrder,
                                   deleteOrder, updateCustomer, refreshBaleStatus, ...)
  * src/unnamed/part_003          (LiveSell view: getBaleStats, addToCart,
                                   handleCheckout, handleEditCustomer, handleManualDelete)
  * src/views/Orders.tsx          (grouped-order edit propagation and the
                                   audit-log encode/decode)

JavaScript numbers are modelled as follows: counters (quantity, stock,
itemCount, orderCount, vipTickets, timestamps) as the integers, money
(prices, totals, amountPaid) as the rationals.  localStorage/Supabase
persistence is modelled by an explicit DB state record; the Supabase mirror
writes have no effect on the local state and are dropped.
-/

set_option maxRecDepth 4000

namespace Paw

/-- src/types.ts: enum PaymentStatus, with 'Partial' rendered as partpaid. -/
inductive PaymentStatus where
  | unpaid
  | partpaid
  | paid
deriving DecidableEq, Repr

/-- src/types.ts: enum ShippingStatus. -/
inductive ShippingStatus where
  | pending
  | shipped
  | rts
  | cancelled
deriving DecidableEq, Repr

/-- src/types.ts: enum PaymentMethod. -/
inductive PaymentMethod where
  | gcash
  | maya
  | tiktok
  | gotyme
  | seabank
  | bpi
  | cash
deriving DecidableEq, Repr

/-- src/types.ts: the four Bale.status string literals. -/
inductive BaleStatus where
  | ordered
  | arrived
  | onSale
  | soldOut
deriving DecidableEq, Repr

/-- src/types.ts: interface Product. -/
structure Product where
  id : String
  name : String
  brand : String
  baleBatch : String
  costPrice : ℚ
  sellingPrice : ℚ
  stock : ℤ
deriving DecidableEq, Repr

/-- src/types.ts: interface Customer. -/
structure Customer where
  id : String
  username : String
  isVIP : Bool
  vipTickets : ℤ
  isBlacklisted : Bool
  totalSpent : ℚ
  orderCount : ℤ
deriving DecidableEq, Repr

/-- src/types.ts: interface Order. -/
structure Order where
  id : String
  sessionId : String
  customerId : String
  customerUsername : String
  productId : String
  productName : String
  quantity : ℤ
  totalPrice : ℚ
  isFreebie : Bool
  paymentStatus : PaymentStatus
  shippingStatus : ShippingStatus
  paymentMethod : Option PaymentMethod
  referenceNumber : Option String
  amountPaid : ℚ
  createdAt : ℤ
  usedVipTicket : Bool
  logs : List String
deriving DecidableEq, Repr

/-- src/types.ts: interface Bale. -/
structure Bale where
  id : String
  name : String
  status : BaleStatus
  cost : ℚ
  itemCount : ℤ
deriving DecidableEq, Repr

/-- The entity store held in localStorage by src/services/dbService.ts
(the keys paw_products, paw_orders, paw_customers, paw_bales). -/
structure DB where
  products : List Product
  orders : List Order
  customers : List Customer
  bales : List Bale
deriving DecidableEq, Repr

/-- Replace the first element satisfying p by its image under f, as the
findIndex-then-assign idiom in dbService.ts does. -/
def updateFirst (p : α → Bool) (f : α → α) : List α → List α
  | [] => []
  | x :: rest => if p x then f x :: rest else x :: updateFirst p f rest

/-- Remove the first element satisfying p (the splice(idx, 1) idiom). -/
def removeFirst (p : α → Bool) : List α → List α
  | [] => []
  | x :: rest => if p x then rest else x :: removeFirst p rest

/-- dbService.updateCustomer: replace the customer with the same id, or push. -/
def updateCustomer (c : Customer) (db : DB) : DB :=
  { db with customers :=
      if db.customers.any (fun x => x.id == c.id) then
        updateFirst (fun x => x.id == c.id) (fun _ => c) db.customers
      else db.customers ++ [c] }

/-- dbService.updateProduct: replace the product with the same id, or push. -/
def updateProduct (p : Product) (db : DB) : DB :=
  { db with products :=
      if db.products.any (fun x => x.id == p.id) then
        updateFirst (fun x => x.id == p.id) (fun _ => p) db.products
      else db.products ++ [p] }

/-- dbService.getOrCreateCustomer: find by username; if absent create a fresh
customer and push it.  The fresh id c_Date.now() is passed in as freshCid.
The legacy backfill for a missing vipTickets field is a no-op here because
the modelled Customer record always carries the field. -/
def getOrCreateCustomer (username freshCid : String) (db : DB) : Customer × DB :=
  match db.customers.find? (fun c => c.username == username) with
  | some c => (c, db)
  | none =>
    let c : Customer :=
      { id := freshCid, username := username, isVIP := false, vipTickets := 0,
        isBlacklisted := false, totalSpent := 0, orderCount := 0 }
    (c, { db with customers := db.customers ++ [c] })

/-- dbService.refreshBaleStatus: soldCount over the bale's products, summing
quantities of orders whose shipping status is not Cancelled. -/
def soldCountFor (db : DB) (baleId : String) : ℤ :=
  let baleProductIds := (db.products.filter (fun p => p.baleBatch == baleId)).map (fun p => p.id)
  ((db.orders.filter (fun o =>
      baleProductIds.contains o.productId
        && !(decide (o.shippingStatus = ShippingStatus.cancelled)))).map
    (fun o => o.quantity)).sum

/-- The new-status computation inside dbService.refreshBaleStatus. -/
def autoStatus (status : BaleStatus) (soldCount itemCount : ℤ) : BaleStatus :=
  if soldCount ≥ itemCount ∧ itemCount > 0 then BaleStatus.soldOut
  else if soldCount > 0 ∧ soldCount < itemCount then
    if status = BaleStatus.ordered ∨ status = BaleStatus.arrived ∨ status = BaleStatus.soldOut
    then BaleStatus.onSale
    else status
  else status

/-- dbService.refreshBaleStatus: set the matched bale's status to the
automatically recomputed one (a no-op when the bale id is absent). -/
def refreshBaleStatus (baleId : String) (db : DB) : DB :=
  let newBales := updateFirst (fun b => b.id == baleId)
    (fun b => { b with status := autoStatus b.status (soldCountFor db baleId) b.itemCount })
    db.bales
  { db with bales := newBales }

/-- dbService.addOrder: push the order; for non-freebies decrement the matched
product's stock by the quantity; bump the customer aggregates; refresh the
affected bale's status. -/
def addOrder (freshCid : String) (o : Order) (db : DB) : DB :=
  let db1 : DB := { db with orders := db.orders ++ [o] }
  let stockStep : DB × Option String :=
    if o.isFreebie then
      (db1, (db1.products.find? (fun p => p.id == o.productId)).map (fun p => p.baleBatch))
    else
      match db1.products.find? (fun p => p.id == o.productId) with
      | none => (db1, none)
      | some p =>
        let newProducts := updateFirst (fun q => q.id == o.productId)
          (fun q => { q with stock := q.stock - o.quantity }) db1.products
        ({ db1 with products := newProducts }, some p.baleBatch)
  let db2 := stockStep.1
  let cpair := getOrCreateCustomer o.customerUsername freshCid db2
  let db4 := updateCustomer
    { cpair.1 with
        orderCount := cpair.1.orderCount + o.quantity,
        totalSpent := cpair.1.totalSpent + o.totalPrice } cpair.2
  match stockStep.2 with
  | some b => refreshBaleStatus b db4
  | none => db4

/-- dbService.updateOrder: on a transition into Cancelled/RTS from a state
that was neither, return the stock to the matched product and remember its
bale; then replace the stored order and refresh that bale. -/
def updateOrder (o : Order) (db : DB) : DB :=
  match db.orders.find? (fun x => x.id == o.id) with
  | none => db
  | some oldOrder =>
    let stockReturn :=
      (o.shippingStatus = ShippingStatus.cancelled ∨ o.shippingStatus = ShippingStatus.rts)
        ∧ ¬(oldOrder.shippingStatus = ShippingStatus.cancelled
              ∨ oldOrder.shippingStatus = ShippingStatus.rts)
    let stockStep : DB × Option String :=
      if stockReturn then
        match db.products.find? (fun p => p.id == o.productId) with
        | none => (db, none)
        | some p =>
          let newProducts := updateFirst (fun q => q.id == o.productId)
            (fun q => { q with stock := q.stock + o.quantity }) db.products
          ({ db with products := newProducts }, some p.baleBatch)
      else (db, none)
    let newOrders := updateFirst (fun x => x.id == o.id) (fun _ => o) stockStep.1.orders
    let db2 : DB := { stockStep.1 with orders := newOrders }
    match stockStep.2 with
    | some b => refreshBaleStatus b db2
    | none => db2

/-- dbService.deleteOrder: drop every order with the id, refreshing the bale
of the deleted order's product when both exist; stock is never touched. -/
def deleteOrder (id : String) (db : DB) : DB :=
  let baleIdToUpdate : Option String :=
    (db.orders.find? (fun o => o.id == id)).bind
      (fun o => (db.products.find? (fun p => p.id == o.productId)).map (fun p => p.baleBatch))
  let db1 : DB := { db with orders := db.orders.filter (fun o => !(o.id == id)) }
  match baleIdToUpdate with
  | some b => refreshBaleStatus b db1
  | none => db1

/-- src/unnamed/part_003: interface CartItem. -/
structure CartItem where
  id : String
  price : ℚ
  quantity : ℤ
  isFreebie : Bool
  baleId : String
deriving DecidableEq, Repr

/-- src/unnamed/part_003: type DiscountType. -/
inductive DiscountType where
  | noneD
  | fixed
  | percentage
deriving DecidableEq, Repr

/-- src/unnamed/part_003: cartTotal, the sum of price * quantity over the cart. -/
def cartTotal (cart : List CartItem) : ℚ :=
  (cart.map (fun i => i.price * (i.quantity : ℚ))).sum

/-- src/unnamed/part_003: calculatedDiscount. -/
def calculatedDiscount (useVipTicket : Bool) (vipDiscountType : DiscountType)
    (vipDiscount total : ℚ) : ℚ :=
  if !useVipTicket then 0
  else
    match vipDiscountType with
    | DiscountType.noneD => 0
    | DiscountType.fixed => min vipDiscount total
    | DiscountType.percentage => total * (min vipDiscount 100 / 100)

/-- src/unnamed/part_003: finalTotal = Math.max(0, cartTotal - calculatedDiscount). -/
def finalTotalOf (useVipTicket : Bool) (vipDiscountType : DiscountType)
    (vipDiscount total : ℚ) : ℚ :=
  max 0 (total - calculatedDiscount useVipTicket vipDiscountType vipDiscount total)

/-- src/unnamed/part_003: the record returned by getBaleStats. -/
structure BaleStats where
  remaining : ℤ
  total : ℤ
  sold : ℤ
  revenue : ℚ
  targetPrice : ℚ
deriving DecidableEq, Repr

/-- src/unnamed/part_003: getBaleStats, combining sold-in-DB (non-cancelled
orders on the bale's products) with the quantity already in the cart. -/
def getBaleStats (db : DB) (cart : List CartItem) (baleId : String) : BaleStats :=
  match db.bales.find? (fun b => b.id == baleId) with
  | none => { remaining := 0, total := 0, sold := 0, revenue := 0, targetPrice := 0 }
  | some bale =>
    let baleProductIds := (db.products.filter (fun p => p.baleBatch == baleId)).map (fun p => p.id)
    let baleOrders := db.orders.filter (fun o =>
      baleProductIds.contains o.productId
        && !(decide (o.shippingStatus = ShippingStatus.cancelled)))
    let soldInDb := (baleOrders.map (fun o => o.quantity)).sum
    let revenueInDb := (baleOrders.map (fun o => o.totalPrice)).sum
    let inCartCount := ((cart.filter (fun i => i.baleId == baleId)).map (fun i => i.quantity)).sum
    let inCartRevenue :=
      ((cart.filter (fun i => i.baleId == baleId)).map (fun i => i.price * (i.quantity : ℚ))).sum
    let totalSoldActual := soldInDb + inCartCount
    let totalRevenueActual := revenueInDb + inCartRevenue
    let remaining := max 0 (bale.itemCount - totalSoldActual)
    let remainingToRecover := max 0 (bale.cost - totalRevenueActual)
    let targetPrice := if remaining > 0 then remainingToRecover / (remaining : ℚ) else 0
    { remaining := remaining, total := bale.itemCount, sold := totalSoldActual,
      revenue := totalRevenueActual, targetPrice := targetPrice }

/-- src/unnamed/part_003: the setCart updater inside addToCart.  The first
cart line matching the exact price, freebie flag and bale id is incremented
and moved to the front; otherwise a fresh line is prepended (its random id
is passed in as newId). -/
def cartAdd (newId : String) (price : ℚ) (isFreebie : Bool) (baleId : String)
    (cart : List CartItem) : List CartItem :=
  match cart.find? (fun i =>
      decide (i.price = price) && (i.isFreebie == isFreebie) && (i.baleId == baleId)) with
  | some item =>
    { item with quantity := item.quantity + 1 }
      :: removeFirst (fun i =>
          decide (i.price = price) && (i.isFreebie == isFreebie) && (i.baleId == baleId)) cart
  | none =>
    { id := newId, price := price, quantity := 1, isFreebie := isFreebie, baleId := baleId } :: cart

/-- The view-state outcome of one addToCart call: the new cart, the
out-of-stock modal payload (bale name, total, sold) when it fired, and the
feedback toast when one fired. -/
structure AddToCartResult where
  cart : List CartItem
  oosModal : Option (String × ℤ × ℤ)
  feedback : Option String
deriving DecidableEq, Repr

/-- src/unnamed/part_003: addToCart, including its three guards (blacklisted
customer, no batch selected, no remaining capacity). -/
def addToCart (db : DB) (isRestricted : Bool) (selectedBaleId : String)
    (cart : List CartItem) (newId : String) (inputPrice : ℚ) (isFreebie : Bool) :
    AddToCartResult :=
  if isRestricted then
    { cart := cart, oosModal := none, feedback := some "Action Blocked" }
  else if selectedBaleId == "" then
    { cart := cart, oosModal := none, feedback := some "Select Batch First" }
  else
    let stats := getBaleStats db cart selectedBaleId
    if stats.remaining ≤ 0 then
      let name := (((db.bales.find? (fun b => b.id == selectedBaleId)).map
        (fun b => b.name)).getD "")
      { cart := cart, oosModal := some (name, stats.total, stats.sold), feedback := none }
    else
      let price := if isFreebie then 0 else inputPrice
      { cart := cartAdd newId price isFreebie selectedBaleId cart, oosModal := none,
        feedback := none }

/-- src/unnamed/part_003: the per-transaction inputs read by handleCheckout.
txAmountPaid is none when the field was the empty string. -/
structure CheckoutEnv where
  sessionId : String
  username : String
  transactionNo : String
  useVipTicket : Bool
  vipDiscountType : DiscountType
  vipDiscount : ℚ
  txPaymentMethod : Option PaymentMethod
  txAmountPaid : Option ℚ
  timestamp : ℤ
deriving Repr

/-- src/unnamed/part_003 handleCheckout: the deterministic product id
live_{baleId}_{price}(_f). -/
def deterministicProdId (item : CartItem) : String :=
  "live_" ++ item.baleId ++ "_" ++ toString item.price ++ (if item.isFreebie then "_f" else "")

/-- src/unnamed/part_003 handleCheckout: the discounted unit price of a cart
line (non-freebies share the VIP discount pro rata). -/
def finalItemPrice (env : CheckoutEnv) (cart : List CartItem) (item : CartItem) : ℚ :=
  let totalDiscountAmount :=
    calculatedDiscount env.useVipTicket env.vipDiscountType env.vipDiscount (cartTotal cart)
  let discountRatio :=
    if env.useVipTicket ∧ cartTotal cart > 0 then totalDiscountAmount / cartTotal cart else 0
  if env.useVipTicket ∧ totalDiscountAmount > 0 ∧ !item.isFreebie then
    item.price * (1 - discountRatio)
  else item.price

/-- src/unnamed/part_003 handleCheckout: a cart line's discounted total. -/
def finalItemTotal (env : CheckoutEnv) (cart : List CartItem) (item : CartItem) : ℚ :=
  finalItemPrice env cart item * (item.quantity : ℚ)

/-- src/unnamed/part_003 handleCheckout: the amount credited to one cart line,
distributing the tendered amount proportional to the line's share of the
(discounted) final total. -/
def itemAmountPaid (env : CheckoutEnv) (cart : List CartItem) (item : CartItem) : ℚ :=
  let globalPaidInput := env.txAmountPaid.getD 0
  let final := finalTotalOf env.useVipTicket env.vipDiscountType env.vipDiscount (cartTotal cart)
  if item.isFreebie then 0
  else if env.txPaymentMethod.isSome then
    if final > 0 then (finalItemTotal env cart item / final) * globalPaidInput else 0
  else 0

/-- src/unnamed/part_003 handleCheckout: the per-line payment status, with the
1/100 tolerance for rounding when deciding Paid. -/
def itemPaymentStatus (env : CheckoutEnv) (cart : List CartItem) (item : CartItem) :
    PaymentStatus :=
  if item.isFreebie then PaymentStatus.paid
  else if env.txPaymentMethod.isSome then
    let amt := itemAmountPaid env cart item
    if amt ≥ finalItemTotal env cart item - 1 / 100 then PaymentStatus.paid
    else if amt > 0 then PaymentStatus.partpaid
    else PaymentStatus.unpaid
  else PaymentStatus.unpaid

/-- src/unnamed/part_003 handleCheckout: the Order row created for the cart
line at index idx. -/
def checkoutOrder (env : CheckoutEnv) (customerId : String) (cart : List CartItem)
    (idx : ℕ) (item : CartItem) : Order :=
  { id := "o_" ++ toString env.timestamp ++ "_" ++ toString idx,
    sessionId := env.sessionId,
    customerId := customerId,
    customerUsername := env.username,
    productId := deterministicProdId item,
    productName := if item.isFreebie then "Gift" else "Live Item ₱" ++ toString item.price,
    quantity := item.quantity,
    totalPrice := finalItemTotal env cart item,
    isFreebie := item.isFreebie,
    paymentStatus := itemPaymentStatus env cart item,
    shippingStatus := ShippingStatus.pending,
    paymentMethod := env.txPaymentMethod,
    referenceNumber := if env.transactionNo == "" then none else some env.transactionNo,
    amountPaid := itemAmountPaid env cart item,
    createdAt := env.timestamp,
    usedVipTicket := env.useVipTicket,
    logs := [] }

/-- src/unnamed/part_003 handleCheckout: the product row upserted for a cart
line. -/
def checkoutProduct (env : CheckoutEnv) (cart : List CartItem) (item : CartItem) : Product :=
  { id := deterministicProdId item,
    name := if item.isFreebie then "Gift" else "Live Item ₱" ++ toString item.price,
    brand := "Live",
    baleBatch := item.baleId,
    costPrice := 0,
    sellingPrice := finalItemPrice env cart item,
    stock := 0 }

/-- src/unnamed/part_003: handleCheckout on the entity store.  Guards
(blacklisted customer, FIXED discount above the cart total, no VIP ticket
left) abort with the store unchanged apart from a possibly created customer;
otherwise the optional ticket is spent and each cart line is committed by an
updateProduct followed by an addOrder. -/
def handleCheckout (env : CheckoutEnv) (cart : List CartItem) (freshCid : String)
    (db : DB) : DB :=
  let cpair := getOrCreateCustomer env.username freshCid db
  let customer := cpair.1
  let db0 := cpair.2
  if customer.isBlacklisted then db0
  else if env.useVipTicket ∧ env.vipDiscountType = DiscountType.fixed
      ∧ env.vipDiscount > cartTotal cart then db0
  else if env.useVipTicket ∧ ¬customer.vipTickets > 0 then db0
  else
    let db1 :=
      if env.useVipTicket then
        updateCustomer { customer with vipTickets := customer.vipTickets - 1 } db0
      else db0
    (cart.enum).foldl
      (fun d pair =>
        addOrder freshCid (checkoutOrder env customer.id cart pair.1 pair.2)
          (updateProduct (checkoutProduct env cart pair.2) d))
      db1

/-- src/unnamed/part_003: the entity-store effect of handleEditCustomer.
The target's orders of the session are deleted, and when one of them had
usedVipTicket the ticket is returned exactly once. -/
def handleEditCustomerDb (sessionId targetUsername freshCid : String) (db : DB) : DB :=
  let sessionOrders := db.orders.filter (fun o =>
    (o.sessionId == sessionId) && (o.customerUsername == targetUsername))
  if sessionOrders.isEmpty then db
  else
    let ticketUsed := sessionOrders.any (fun o => o.usedVipTicket)
    let db1 := sessionOrders.foldl (fun d o => deleteOrder o.id d) db
    if ticketUsed then
      let cpair := getOrCreateCustomer targetUsername freshCid db1
      updateCustomer { cpair.1 with vipTickets := cpair.1.vipTickets + 1 } cpair.2
    else db1

/-- src/unnamed/part_003: the entity-store effect of handleManualDelete on a
customer's session orders. -/
def handleManualDelete (sessionId targetUsername freshCid : String) (db : DB) : DB :=
  let userOrders := db.orders.filter (fun o =>
    (o.sessionId == sessionId) && (o.customerUsername == targetUsername))
  let db1 := userOrders.foldl (fun d o => deleteOrder o.id d) db
  if userOrders.any (fun o => o.usedVipTicket) then
    let cpair := getOrCreateCustomer targetUsername freshCid db1
    updateCustomer { cpair.1 with vipTickets := cpair.1.vipTickets + 1 } cpair.2
  else db1

/-- src/views/Orders.tsx: the grouped-order edit payload handed to
handleUpdate by the StatusModal (the aggregate fields the user edited plus
the constituent rows and their ids). -/
structure GroupedUpdate where
  paymentStatus : PaymentStatus
  shippingStatus : ShippingStatus
  paymentMethod : Option PaymentMethod
  referenceNumber : Option String
  amountPaid : ℚ
  items : List Order
  ids : List String
deriving Repr

/-- src/views/Orders.tsx handleUpdate: how one constituent order row is
rewritten when a grouped edit is saved.  Paid sets the row's own total,
Unpaid sets 0, Partial distributes the aggregate proportionally; the payment
status is copied from the group for every row. -/
def handleUpdateOrder (updated : GroupedUpdate) (newLog : Option String)
    (original : Order) : Order :=
  let newItemPaidAmount :=
    if updated.paymentStatus = PaymentStatus.paid then original.totalPrice
    else if updated.paymentStatus = PaymentStatus.unpaid then 0
    else
      let totalGroupPrice := (updated.items.map (fun i => i.totalPrice)).sum
      let ratio := if totalGroupPrice > 0 then updated.amountPaid / totalGroupPrice else 0
      original.totalPrice * ratio
  { original with
      paymentStatus := updated.paymentStatus,
      shippingStatus := updated.shippingStatus,
      paymentMethod := updated.paymentMethod,
      referenceNumber := updated.referenceNumber,
      amountPaid := newItemPaidAmount,
      logs := original.logs ++ newLog.toList }

/-- src/views/Orders.tsx handleUpdate: propagate the grouped edit to every
constituent id, reading the current store each step. -/
def handleUpdateGroup (updated : GroupedUpdate) (newLog : Option String) (db : DB) : DB :=
  updated.ids.foldl
    (fun d id =>
      match d.orders.find? (fun o => o.id == id) with
      | some original => updateOrder (handleUpdateOrder updated newLog original) d
      | none => d)
    db

/-- Modelled from the spec: the claimed per-item payment-status rule for the
grouped-edit save path (Paid when the item's paid amount is within 0.01 of
its total, Unpaid when zero, Partial otherwise).  Used only to compare the
spec's words with what Orders.tsx handleUpdate actually stores. -/
def specPerItemStatus (paidAmount total : ℚ) : PaymentStatus :=
  if paidAmount ≥ total - 1 / 100 then PaymentStatus.paid
  else if paidAmount = 0 then PaymentStatus.unpaid
  else PaymentStatus.partpaid

/-! ### Toolkit lemmas about updateFirst and removeFirst -/

theorem updateFirst_nil (p : α → Bool) (f : α → α) : updateFirst p f [] = [] := rfl

theorem updateFirst_cons (p : α → Bool) (f : α → α) (x : α) (l : List α) :
    updateFirst p f (x :: l) = if p x then f x :: l else x :: updateFirst p f l := rfl

theorem updateFirst_of_forall_not (p : α → Bool) (f : α → α) :
    ∀ l : List α, (∀ x ∈ l, p x = false) → updateFirst p f l = l := by
  intro l h
  induction l with
  | nil => rfl
  | cons x rest ih =>
    have hx : p x = false := h x (List.mem_cons_self x rest)
    simp [updateFirst, hx, ih (fun y hy => h y (List.mem_cons_of_mem x hy))]

theorem mem_updateFirst (p : α → Bool) (f : α → α) :
    ∀ l : List α, ∀ x ∈ updateFirst p f l, x ∈ l ∨ ∃ y, y ∈ l ∧ p y = true ∧ x = f y := by
  intro l
  induction l with
  | nil => intro x hx; simp [updateFirst] at hx
  | cons a rest ih =>
    intro x hx
    by_cases ha : p a = true
    · simp [updateFirst, ha] at hx
      rcases hx with h | h
      · exact Or.inr ⟨a, List.mem_cons_self a rest, ha, h⟩
      · exact Or.inl (List.mem_cons_of_mem a h)
    · simp [updateFirst, Bool.eq_false_iff.mpr ha] at hx
      rcases hx with h | h
      · exact Or.inl (h ▸ List.mem_cons_self a rest)
      · rcases ih x h with h' | ⟨y, hy, hpy, hxy⟩
        · exact Or.inl (List.mem_cons_of_mem a h')
        · exact Or.inr ⟨y, List.mem_cons_of_mem a hy, hpy, hxy⟩

theorem mem_updateFirst_of_not (p : α → Bool) (f : α → α) :
    ∀ l : List α, ∀ x ∈ l, p x = false → x ∈ updateFirst p f l := by
  intro l
  induction l with
  | nil => intro x hx; simp at hx
  | cons a rest ih =>
    intro x hx hpx
    rcases List.mem_cons.mp hx with rfl | hmem
    · simp [updateFirst, hpx]
    · by_cases ha : p a = true
      · simp [updateFirst, ha]
        exact Or.inr hmem
      · simp [updateFirst, Bool.eq_false_iff.mpr ha]
        exact Or.inr (ih x hmem hpx)

theorem mem_updateFirst_target (p : α → Bool) (f : α → α) :
    ∀ l : List α, ∀ x, l.find? p = some x → f x ∈ updateFirst p f l := by
  intro l
  induction l with
  | nil => intro x hx; simp at hx
  | cons a rest ih =>
    intro x hx
    by_cases ha : p a = true
    · rw [List.find?_cons_of_pos _ ha] at hx
      cases hx
      simp [updateFirst, ha]
    · have ha' : p a = false := Bool.eq_false_iff.mpr ha
      rw [List.find?_cons_of_neg _ ha] at hx
      simp [updateFirst, ha']
      exact Or.inr (ih x hx)

theorem find?_updateFirst (p : α → Bool) (f : α → α)
    (hpf : ∀ x, p x = true → p (f x) = true) :
    ∀ l : List α, (updateFirst p f l).find? p = (l.find? p).map f := by
  intro l
  induction l with
  | nil => rfl
  | cons a rest ih =>
    by_cases ha : p a = true
    · simp [updateFirst, ha, List.find?_cons_of_pos _ ha,
        List.find?_cons_of_pos _ (hpf a ha)]
    · have ha' : p a = false := Bool.eq_false_iff.mpr ha
      simp only [updateFirst, ha', if_false, Bool.false_eq_true]
      rw [List.find?_cons_of_neg _ ha, List.find?_cons_of_neg _ ha, ih]

/-! ### Projection lemmas for the entity-store operations -/

theorem refreshBaleStatus_orders (b : String) (db : DB) :
    (refreshBaleStatus b db).orders = db.orders := rfl

theorem refreshBaleStatus_products (b : String) (db : DB) :
    (refreshBaleStatus b db).products = db.products := rfl

theorem refreshBaleStatus_customers (b : String) (db : DB) :
    (refreshBaleStatus b db).customers = db.customers := rfl

theorem refreshBaleStatus_bales (b : String) (db : DB) :
    (refreshBaleStatus b db).bales
      = updateFirst (fun x => x.id == b)
          (fun x => { x with status := autoStatus x.status (soldCountFor db b) x.itemCount })
          db.bales := rfl

theorem updateCustomer_orders (c : Customer) (db : DB) :
    (updateCustomer c db).orders = db.orders := rfl

theorem updateCustomer_products (c : Customer) (db : DB) :
    (updateCustomer c db).products = db.products := rfl

theorem updateCustomer_bales (c : Customer) (db : DB) :
    (updateCustomer c db).bales = db.bales := rfl

theorem updateProduct_orders (p : Product) (db : DB) :
    (updateProduct p db).orders = db.orders := rfl

theorem updateProduct_customers (p : Product) (db : DB) :
    (updateProduct p db).customers = db.customers := rfl

theorem updateProduct_bales (p : Product) (db : DB) :
    (updateProduct p db).bales = db.bales := rfl

theorem getOrCreateCustomer_orders (u cid : String) (db : DB) :
    (getOrCreateCustomer u cid db).2.orders = db.orders := by
  unfold getOrCreateCustomer
  cases db.customers.find? (fun c => c.username == u) <;> rfl

theorem getOrCreateCustomer_products (u cid : String) (db : DB) :
    (getOrCreateCustomer u cid db).2.products = db.products := by
  unfold getOrCreateCustomer
  cases db.customers.find? (fun c => c.username == u) <;> rfl

theorem getOrCreateCustomer_bales (u cid : String) (db : DB) :
    (getOrCreateCustomer u cid db).2.bales = db.bales := by
  unfold getOrCreateCustomer
  cases db.customers.find? (fun c => c.username == u) <;> rfl

theorem getOrCreateCustomer_found (u cid : String) (db : DB) (c : Customer)
    (h : db.customers.find? (fun x => x.username == u) = some c) :
    getOrCreateCustomer u cid db = (c, db) := by
  unfold getOrCreateCustomer
  rw [h]

/-! ### Claim C1: automatic bale-status recompute -/

/-- A store holding one bale with itemCount 1 whose status is Sold Out while
no order exists: soldCount is 0, below itemCount. -/
def dbC1 : DB :=
  { products := [], orders := [], customers := [],
    bales := [{ id := "b1", name := "Bale 1", status := BaleStatus.soldOut,
                cost := 0, itemCount := 1 }] }

/-- C1 counterexample: the claim says the status is demoted to On Sale
whenever soldCount drops under itemCount while the status was Ordered,
Arrived or Sold Out.  On the store dbC1 the bale has itemCount 1 > 0,
status Sold Out, and soldCount 0 < 1, yet refreshBaleStatus leaves the
status at Sold Out: the code only demotes when 0 < soldCount. -/
theorem C1_counterexample :
    soldCountFor dbC1 "b1" = 0
  ∧ 0 < (1 : ℤ)
  ∧ dbC1.bales.map (fun b => b.status) = [BaleStatus.soldOut]
  ∧ (refreshBaleStatus "b1" dbC1).bales.map (fun b => b.status) = [BaleStatus.soldOut]
  ∧ BaleStatus.soldOut ≠ BaleStatus.onSale := by
  decide

/-- C1 (amended): after refreshBaleStatus the matched bale's status is
autoStatus of its old status, the soldCount over non-cancelled orders of its
products, and its itemCount; for itemCount > 0, autoStatus yields Sold Out
whenever soldCount ≥ itemCount; it demotes Ordered/Arrived/Sold Out to
On Sale when 0 < soldCount < itemCount (leaving any other status alone);
when soldCount ≤ 0 the status is left unchanged (the demotion the original
claim expected does not happen there); and the recompute never moves a
status to Ordered or Arrived. -/
theorem C1_bale_status_policy :
    (∀ baleId db, (refreshBaleStatus baleId db).bales
        = updateFirst (fun b => b.id == baleId)
            (fun b => { b with
                status := autoStatus b.status (soldCountFor db baleId) b.itemCount })
            db.bales)
  ∧ (∀ st sold ic, 0 < ic → ic ≤ sold → autoStatus st sold ic = BaleStatus.soldOut)
  ∧ (∀ st sold ic, 0 < sold → sold < ic →
        autoStatus st sold ic
          = if st = BaleStatus.ordered ∨ st = BaleStatus.arrived ∨ st = BaleStatus.soldOut
            then BaleStatus.onSale else st)
  ∧ (∀ st sold ic, 0 < ic → sold ≤ 0 → autoStatus st sold ic = st)
  ∧ (∀ st sold ic, 0 < sold →
        (autoStatus st sold ic = BaleStatus.soldOut ↔ (ic ≤ sold ∧ 0 < ic)
          ∨ (st = BaleStatus.soldOut ∧ ¬(0 < ic) )
          ∨ (st = BaleStatus.soldOut ∧ ic ≤ sold)))
  ∧ (∀ st sold ic, autoStatus st sold ic = st ∨ autoStatus st sold ic = BaleStatus.soldOut
        ∨ autoStatus st sold ic = BaleStatus.onSale) := by
  refine ⟨fun baleId db => rfl, ?_, ?_, ?_, ?_, ?_⟩
  · intro st sold ic h1 h2
    unfold autoStatus
    rw [if_pos ⟨h2, h1⟩]
  · intro st sold ic h1 h2
    unfold autoStatus
    rw [if_neg (by omega), if_pos ⟨h1, h2⟩]
  · intro st sold ic h1 h2
    unfold autoStatus
    rw [if_neg (by omega), if_neg (by omega)]
  · intro st sold ic h1
    unfold autoStatus
    constructor
    · intro h
      by_cases hc : ic ≤ sold ∧ 0 < ic
      · exact Or.inl hc
      · rw [if_neg hc] at h
        by_cases hlt : sold < ic
        · rw [if_pos ⟨h1, hlt⟩] at h
          by_cases hset : st = BaleStatus.ordered ∨ st = BaleStatus.arrived
              ∨ st = BaleStatus.soldOut
          · rw [if_pos hset] at h; exact absurd h (by decide)
          · rw [if_neg hset] at h
            exact absurd (h ▸ hset) (fun hn => hn (Or.inr (Or.inr rfl)))
        · rw [if_neg (by omega)] at h
          subst h
          exact Or.inr (Or.inr ⟨rfl, by omega⟩)
    · intro h
      rcases h with hc | ⟨hst, hic⟩ | ⟨hst, hle⟩
      · rw [if_pos hc]
      · subst hst
        by_cases hc : ic ≤ sold ∧ 0 < ic
        · rw [if_pos hc]
        · rw [if_neg hc, if_neg (by omega)]
      · subst hst
        by_cases hc : ic ≤ sold ∧ 0 < ic
        · rw [if_pos hc]
        · rw [if_neg hc, if_neg (by omega)]
  · intro st sold ic
    unfold autoStatus
    by_cases hc : ic ≤ sold ∧ 0 < ic
    · rw [if_pos hc]; exact Or.inr (Or.inl rfl)
    · rw [if_neg hc]
      by_cases hlt : 0 < sold ∧ sold < ic
      · rw [if_pos hlt]
        by_cases hset : st = BaleStatus.ordered ∨ st = BaleStatus.arrived
            ∨ st = BaleStatus.soldOut
        · rw [if_pos hset]; exact Or.inr (Or.inr rfl)
        · rw [if_neg hset]; exact Or.inl rfl
      · rw [if_neg hlt]; exact Or.inl rfl

/-! ### Claim C4: VIP discount and final total -/

/-- C4: the discount is 0 with no ticket or type NONE; FIXED gives
min(vipDiscount, cartTotal); PERCENTAGE gives cartTotal * min(vipDiscount,
100)/100; the final total is max(0, cartTotal - discount), hence never
negative; and the two concrete figures of the spec hold (1000 with
PERCENTAGE 20 gives 800, 1000 with FIXED 150 gives 850). -/
theorem C4_discount_policy :
    (∀ dtype d total, calculatedDiscount false dtype d total = 0)
  ∧ (∀ useVip d total, calculatedDiscount useVip DiscountType.noneD d total = 0)
  ∧ (∀ d total, calculatedDiscount true DiscountType.fixed d total = min d total)
  ∧ (∀ d total, calculatedDiscount true DiscountType.percentage d total
        = total * (min d 100 / 100))
  ∧ (∀ useVip dtype d total, finalTotalOf useVip dtype d total
        = max 0 (total - calculatedDiscount useVip dtype d total))
  ∧ (∀ useVip dtype d total, 0 ≤ finalTotalOf useVip dtype d total)
  ∧ finalTotalOf true DiscountType.percentage 20 1000 = 800
  ∧ finalTotalOf true DiscountType.fixed 150 1000 = 850 := by
  refine ⟨fun dtype d total => rfl, ?_, fun d total => rfl, fun d total => rfl,
    fun useVip dtype d total => rfl, ?_, ?_, ?_⟩
  · intro useVip d total
    cases useVip <;> rfl
  · intro useVip dtype d total
    exact le_max_left 0 _
  · show max 0 (1000 - calculatedDiscount true DiscountType.percentage 20 1000) = 800
    norm_num [calculatedDiscount]
  · show max 0 (1000 - calculatedDiscount true DiscountType.fixed 150 1000) = 850
    norm_num [calculatedDiscount]

/-! ### Effect lemmas for updateOrder, deleteOrder and addOrder -/

theorem updateOrder_products (db : DB) (o oldO : Order)
    (h : db.orders.find? (fun x => x.id == o.id) = some oldO) :
    (updateOrder o db).products
      = if (o.shippingStatus = ShippingStatus.cancelled ∨ o.shippingStatus = ShippingStatus.rts)
          ∧ ¬(oldO.shippingStatus = ShippingStatus.cancelled
                ∨ oldO.shippingStatus = ShippingStatus.rts)
        then updateFirst (fun p => p.id == o.productId)
               (fun p => { p with stock := p.stock + o.quantity }) db.products
        else db.products := by
  unfold updateOrder
  rw [h]
  by_cases hc : (o.shippingStatus = ShippingStatus.cancelled
      ∨ o.shippingStatus = ShippingStatus.rts)
    ∧ ¬(oldO.shippingStatus = ShippingStatus.cancelled
          ∨ oldO.shippingStatus = ShippingStatus.rts)
  · cases hfind : db.products.find? (fun p => p.id == o.productId) with
    | none =>
      have hall : ∀ x ∈ db.products, (fun p => p.id == o.productId) x = false := by
        intro x hx
        exact Bool.eq_false_iff.mpr (List.find?_eq_none.mp hfind x hx)
      simp only [hfind, if_pos hc]
      rw [updateFirst_of_forall_not _ _ db.products hall]
    | some p =>
      simp only [hfind, if_pos hc]
      rw [refreshBaleStatus_products]
  · simp only [if_neg hc]

theorem updateOrder_customers (o : Order) (db : DB) :
    (updateOrder o db).customers = db.customers := by
  unfold updateOrder
  cases h : db.orders.find? (fun x => x.id == o.id) with
  | none => rfl
  | some oldO =>
    by_cases hc : (o.shippingStatus = ShippingStatus.cancelled
        ∨ o.shippingStatus = ShippingStatus.rts)
      ∧ ¬(oldO.shippingStatus = ShippingStatus.cancelled
            ∨ oldO.shippingStatus = ShippingStatus.rts)
    · cases hfind : db.products.find? (fun p => p.id == o.productId) with
      | none => simp only [hfind, if_pos hc]
      | some p =>
        simp only [hfind, if_pos hc]
        rw [refreshBaleStatus_customers]
    · simp only [if_neg hc]

theorem updateOrder_not_found (o : Order) (db : DB)
    (h : db.orders.find? (fun x => x.id == o.id) = none) :
    updateOrder o db = db := by
  unfold updateOrder
  rw [h]

theorem deleteOrder_products (id : String) (db : DB) :
    (deleteOrder id db).products = db.products := by
  unfold deleteOrder
  cases hb : (db.orders.find? (fun o => o.id == id)).bind
      (fun o => (db.products.find? (fun p => p.id == o.productId)).map
        (fun p => p.baleBatch)) with
  | none => simp only [hb]
  | some b =>
    simp only [hb]
    rw [refreshBaleStatus_products]

theorem deleteOrder_customers (id : String) (db : DB) :
    (deleteOrder id db).customers = db.customers := by
  unfold deleteOrder
  cases hb : (db.orders.find? (fun o => o.id == id)).bind
      (fun o => (db.products.find? (fun p => p.id == o.productId)).map
        (fun p => p.baleBatch)) with
  | none => simp only [hb]
  | some b =>
    simp only [hb]
    rw [refreshBaleStatus_customers]

theorem deleteOrder_orders (id : String) (db : DB) :
    (deleteOrder id db).orders = db.orders.filter (fun o => !(o.id == id)) := by
  unfold deleteOrder
  cases hb : (db.orders.find? (fun o => o.id == id)).bind
      (fun o => (db.products.find? (fun p => p.id == o.productId)).map
        (fun p => p.baleBatch)) with
  | none => simp only [hb]
  | some b =>
    simp only [hb]
    rw [refreshBaleStatus_orders]

/-- The store once every order carrying the given id is dropped (the
intermediate state deleteOrder recomputes the bale status against). -/
def dbWithoutOrder (id : String) (db : DB) : DB :=
  { db with orders := db.orders.filter (fun x => !(x.id == id)) }

theorem deleteOrder_bales (id : String) (db : DB) (o : Order) (p : Product)
    (h1 : db.orders.find? (fun x => x.id == id) = some o)
    (h2 : db.products.find? (fun x => x.id == o.productId) = some p) :
    (deleteOrder id db).bales
      = updateFirst (fun b => b.id == p.baleBatch)
          (fun b => { b with
              status := autoStatus b.status (soldCountFor (dbWithoutOrder id db) p.baleBatch) b.itemCount })
          db.bales := by
  unfold deleteOrder
  rw [h1]
  simp only [Option.some_bind, h2, Option.map_some']
  rw [refreshBaleStatus_bales]
  rfl

theorem addOrder_orders (cid : String) (o : Order) (db : DB) :
    (addOrder cid o db).orders = db.orders ++ [o] := by
  unfold addOrder
  cases hf : o.isFreebie with
  | true =>
    cases hb : db.products.find? (fun p => p.id == o.productId) with
    | none =>
      simp only [hf, hb, if_true, Option.map_none']
      rw [updateCustomer_orders, getOrCreateCustomer_orders]
    | some p =>
      simp only [hf, hb, if_true, Option.map_some']
      rw [refreshBaleStatus_orders, updateCustomer_orders, getOrCreateCustomer_orders]
  | false =>
    cases hb : db.products.find? (fun p => p.id == o.productId) with
    | none =>
      simp only [hf, hb, Bool.false_eq_true, if_false]
      rw [updateCustomer_orders, getOrCreateCustomer_orders]
    | some p =>
      simp only [hf, hb, Bool.false_eq_true, if_false]
      rw [refreshBaleStatus_orders, updateCustomer_orders, getOrCreateCustomer_orders]

theorem soldCountFor_congr (db1 db2 : DB) (b : String)
    (h1 : db1.products = db2.products) (h2 : db1.orders = db2.orders) :
    soldCountFor db1 b = soldCountFor db2 b := by
  unfold soldCountFor
  rw [h1, h2]

theorem addOrder_products_freebie (cid : String) (o : Order) (db : DB)
    (hf : o.isFreebie = true) :
    (addOrder cid o db).products = db.products := by
  unfold addOrder
  cases hb : db.products.find? (fun p => p.id == o.productId) with
  | none =>
    simp only [hf, hb, if_true, Option.map_none']
    rw [updateCustomer_products, getOrCreateCustomer_products]
  | some p =>
    simp only [hf, hb, if_true, Option.map_some']
    rw [refreshBaleStatus_products, updateCustomer_products, getOrCreateCustomer_products]

theorem addOrder_products_nonfreebie (cid : String) (o : Order) (db : DB) (p : Product)
    (hf : o.isFreebie = false)
    (hb : db.products.find? (fun x => x.id == o.productId) = some p) :
    (addOrder cid o db).products
      = updateFirst (fun q => q.id == o.productId)
          (fun q => { q with stock := q.stock - o.quantity }) db.products := by
  unfold addOrder
  simp only [hf, hb, Bool.false_eq_true, if_false]
  rw [refreshBaleStatus_products, updateCustomer_products, getOrCreateCustomer_products]

theorem addOrder_customers_found (cid : String) (o : Order) (db : DB) (c : Customer)
    (hc : db.customers.find? (fun x => x.username == o.customerUsername) = some c) :
    (addOrder cid o db).customers
      = updateFirst (fun x => x.id == c.id)
          (fun _ => { c with
              orderCount := c.orderCount + o.quantity,
              totalSpent := c.totalSpent + o.totalPrice }) db.customers := by
  have hmem : c ∈ db.customers := List.mem_of_find?_eq_some hc
  have hany : (db.customers.any fun x => x.id == c.id) = true := by
    refine List.any_eq_true.mpr ⟨c, hmem, ?_⟩
    simp
  unfold addOrder
  cases hf : o.isFreebie with
  | true =>
    cases hb : db.products.find? (fun p => p.id == o.productId) with
    | none =>
      simp only [hf, hb, if_true, Option.map_none']
      simp only [getOrCreateCustomer, updateCustomer, hc, hany, if_true]
    | some p =>
      simp only [hf, hb, if_true, Option.map_some']
      rw [refreshBaleStatus_customers]
      simp only [getOrCreateCustomer, updateCustomer, hc, hany, if_true]
  | false =>
    cases hb : db.products.find? (fun p => p.id == o.productId) with
    | none =>
      simp only [hf, hb, Bool.false_eq_true, if_false]
      simp only [getOrCreateCustomer, updateCustomer, hc, hany, if_true]
    | some p =>
      simp only [hf, hb, Bool.false_eq_true, if_false]
      rw [refreshBaleStatus_customers]
      simp only [getOrCreateCustomer, updateCustomer, hc, hany, if_true]

/-- The store right after addOrder's first two steps on a non-freebie order:
the order appended and the matched product's stock decremented. -/
def dbAfterAdd (o : Order) (db : DB) : DB :=
  { db with
      orders := db.orders ++ [o],
      products := updateFirst (fun q => q.id == o.productId)
        (fun q => { q with stock := q.stock - o.quantity }) db.products }

theorem addOrder_eq_nonfreebie (cid : String) (o : Order) (db : DB) (p : Product) (c : Customer)
    (hf : o.isFreebie = false)
    (hb : db.products.find? (fun x => x.id == o.productId) = some p)
    (hc : db.customers.find? (fun x => x.username == o.customerUsername) = some c) :
    addOrder cid o db
      = refreshBaleStatus p.baleBatch
          (updateCustomer { c with
              orderCount := c.orderCount + o.quantity,
              totalSpent := c.totalSpent + o.totalPrice } (dbAfterAdd o db)) := by
  unfold addOrder
  simp only [hf, hb, Bool.false_eq_true, if_false, Option.map_some']
  simp only [getOrCreateCustomer, hc]
  rfl

theorem addOrder_products_notfound (cid : String) (o : Order) (db : DB)
    (hf : o.isFreebie = false)
    (hb : db.products.find? (fun x => x.id == o.productId) = none) :
    (addOrder cid o db).products = db.products := by
  unfold addOrder
  simp only [hf, hb, Bool.false_eq_true, if_false]
  rw [updateCustomer_products, getOrCreateCustomer_products]

theorem addOrder_bales_nonfreebie (cid : String) (o : Order) (db : DB) (p : Product) (c : Customer)
    (hf : o.isFreebie = false)
    (hb : db.products.find? (fun x => x.id == o.productId) = some p)
    (hc : db.customers.find? (fun x => x.username == o.customerUsername) = some c) :
    (addOrder cid o db).bales
      = updateFirst (fun b => b.id == p.baleBatch)
          (fun b => { b with
              status := autoStatus b.status (soldCountFor (dbAfterAdd o db) p.baleBatch) b.itemCount })
          db.bales := by
  rw [addOrder_eq_nonfreebie cid o db p c hf hb hc, refreshBaleStatus_bales]
  rw [soldCountFor_congr
    (updateCustomer { c with
        orderCount := c.orderCount + o.quantity,
        totalSpent := c.totalSpent + o.totalPrice } (dbAfterAdd o db))
    (dbAfterAdd o db) p.baleBatch rfl rfl]
  rfl

theorem mem_of_mem_updateFirst_not (p : α → Bool) (f : α → α)
    (hpf : ∀ y, p y = true → p (f y) = true) (l : List α) (x : α)
    (hx : x ∈ updateFirst p f l) (hpx : p x = false) : x ∈ l := by
  rcases mem_updateFirst p f l x hx with h | ⟨y, hy, hpy, rfl⟩
  · exact h
  · rw [hpf y hpy] at hpx
    cases hpx

theorem find?_of_nodup_ids (l : List Customer) (c : Customer)
    (hnd : (l.map (fun x => x.id)).Nodup) (hmem : c ∈ l) :
    l.find? (fun x => x.id == c.id) = some c := by
  cases hfind : l.find? (fun x => x.id == c.id) with
  | none =>
    exfalso
    exact List.find?_eq_none.mp hfind c hmem (by simp)
  | some z =>
    have hz : z ∈ l := List.mem_of_find?_eq_some hfind
    have hpz := List.find?_some hfind
    have : z.id = c.id := by simpa using hpz
    have := List.inj_on_of_nodup_map hnd hz hmem this
    rw [this]

/-! ### Claim C2: stock return on cancel/RTS; deleteOrder frame -/

/-- C2: updateOrder returns the order's quantity to the matched product's
stock exactly when the shipping status moves into Cancelled/RTS from a state
that was neither (first two conjuncts: the if-characterisation of the whole
product list, and the exact new stock of the matched product); updateOrder
with any other transition leaves the products untouched (the else branch);
deleteOrder never changes any product and still recomputes the bale status
of the deleted order's product's bale against the store without the order. -/
theorem C2_stock_return_and_delete_frame :
    (∀ (db : DB) (o oldO : Order), db.orders.find? (fun x => x.id == o.id) = some oldO →
      (updateOrder o db).products
        = if (o.shippingStatus = ShippingStatus.cancelled ∨ o.shippingStatus = ShippingStatus.rts)
            ∧ ¬(oldO.shippingStatus = ShippingStatus.cancelled
                  ∨ oldO.shippingStatus = ShippingStatus.rts)
          then updateFirst (fun p => p.id == o.productId)
                 (fun p => { p with stock := p.stock + o.quantity }) db.products
          else db.products)
  ∧ (∀ (db : DB) (o oldO : Order) (p : Product),
      db.orders.find? (fun x => x.id == o.id) = some oldO →
      db.products.find? (fun x => x.id == o.productId) = some p →
      ((o.shippingStatus = ShippingStatus.cancelled ∨ o.shippingStatus = ShippingStatus.rts)
        ∧ ¬(oldO.shippingStatus = ShippingStatus.cancelled
              ∨ oldO.shippingStatus = ShippingStatus.rts)) →
      (updateOrder o db).products.find? (fun x => x.id == o.productId)
        = some { p with stock := p.stock + o.quantity })
  ∧ (∀ (id : String) (db : DB), (deleteOrder id db).products = db.products)
  ∧ (∀ (id : String) (db : DB) (o : Order) (p : Product),
      db.orders.find? (fun x => x.id == id) = some o →
      db.products.find? (fun x => x.id == o.productId) = some p →
      (deleteOrder id db).bales
        = updateFirst (fun b => b.id == p.baleBatch)
            (fun b => { b with
                status := autoStatus b.status (soldCountFor (dbWithoutOrder id db) p.baleBatch) b.itemCount })
            db.bales) := by
  refine ⟨updateOrder_products, ?_, deleteOrder_products, deleteOrder_bales⟩
  intro db o oldO p h hp hcond
  rw [updateOrder_products db o oldO h, if_pos hcond]
  rw [find?_updateFirst (fun x => x.id == o.productId)
    (fun q => { q with stock := q.stock + o.quantity }) (fun x hx => hx) db.products, hp]
  rfl

/-- The store dbC2 has a single pending order on product prodC2 of bale
baleC2, held by customer custC2: concrete data to exercise C2. -/
def prodC2 : Product :=
  { id := "p1", name := "Item", brand := "Live", baleBatch := "b1",
    costPrice := 0, sellingPrice := 0, stock := 3 }

def custC2 : Customer :=
  { id := "c1", username := "ana", isVIP := false, vipTickets := 0,
    isBlacklisted := false, totalSpent := 0, orderCount := 2 }

def orderC2 : Order :=
  { id := "o1", sessionId := "s1", customerId := "c1", customerUsername := "ana",
    productId := "p1", productName := "Item", quantity := 2, totalPrice := 0,
    isFreebie := false, paymentStatus := PaymentStatus.unpaid,
    shippingStatus := ShippingStatus.pending, paymentMethod := none,
    referenceNumber := none, amountPaid := 0, createdAt := 0,
    usedVipTicket := false, logs := [] }

def dbC2 : DB :=
  { products := [prodC2], orders := [orderC2], customers := [custC2],
    bales := [{ id := "b1", name := "Bale 1", status := BaleStatus.onSale,
                cost := 0, itemCount := 5 }] }

/-- C2 witness: on the concrete store dbC2, cancelling the pending order o1
raises p1's stock from 3 to 5, while a mere payment-status edit and a
deleteOrder both leave the stock at 3. -/
theorem C2_witness :
    ((updateOrder { orderC2 with shippingStatus := ShippingStatus.cancelled } dbC2).products.map
        (fun p => p.stock) = [5])
  ∧ ((updateOrder { orderC2 with paymentStatus := PaymentStatus.paid } dbC2).products.map
        (fun p => p.stock) = [3])
  ∧ ((deleteOrder "o1" dbC2).products.map (fun p => p.stock) = [3]) := by
  refine ⟨?_, ?_, ?_⟩
  · rw [C2_stock_return_and_delete_frame.1 dbC2
      { orderC2 with shippingStatus := ShippingStatus.cancelled } orderC2 (by decide)]
    decide
  · rw [C2_stock_return_and_delete_frame.1 dbC2
      { orderC2 with paymentStatus := PaymentStatus.paid } orderC2 (by decide)]
    decide
  · rw [C2_stock_return_and_delete_frame.2.2.1 "o1" dbC2]
    decide

/-! ### Claim C7: addOrder effects -/

/-- C7: addOrder appends the order; a non-freebie order decrements exactly
the matched product's stock by its quantity (and the matched product's new
stock is old stock minus quantity), a freebie leaves all products alone; the
matched customer's orderCount grows by the quantity and totalSpent by the
totalPrice; the bale of the affected product is recomputed; every other
product, customer and bale is untouched (the membership conjuncts). -/
theorem C7_addOrder_effects :
    (∀ (cid : String) (o : Order) (db : DB), (addOrder cid o db).orders = db.orders ++ [o])
  ∧ (∀ (cid : String) (o : Order) (db : DB), o.isFreebie = true →
      (addOrder cid o db).products = db.products)
  ∧ (∀ (cid : String) (o : Order) (db : DB) (p : Product), o.isFreebie = false →
      db.products.find? (fun x => x.id == o.productId) = some p →
      (addOrder cid o db).products
        = updateFirst (fun q => q.id == o.productId)
            (fun q => { q with stock := q.stock - o.quantity }) db.products)
  ∧ (∀ (cid : String) (o : Order) (db : DB) (p : Product), o.isFreebie = false →
      db.products.find? (fun x => x.id == o.productId) = some p →
      (addOrder cid o db).products.find? (fun x => x.id == o.productId)
        = some { p with stock := p.stock - o.quantity })
  ∧ (∀ (cid : String) (o : Order) (db : DB) (c : Customer),
      db.customers.find? (fun x => x.username == o.customerUsername) = some c →
      (addOrder cid o db).customers
        = updateFirst (fun x => x.id == c.id)
            (fun _ => { c with
                orderCount := c.orderCount + o.quantity,
                totalSpent := c.totalSpent + o.totalPrice }) db.customers)
  ∧ (∀ (cid : String) (o : Order) (db : DB) (p : Product) (c : Customer),
      o.isFreebie = false →
      db.products.find? (fun x => x.id == o.productId) = some p →
      db.customers.find? (fun x => x.username == o.customerUsername) = some c →
      (addOrder cid o db).bales
        = updateFirst (fun b => b.id == p.baleBatch)
            (fun b => { b with
                status := autoStatus b.status (soldCountFor (dbAfterAdd o db) p.baleBatch) b.itemCount })
            db.bales)
  ∧ (∀ (cid : String) (o : Order) (db : DB) (p : Product), o.isFreebie = false →
      db.products.find? (fun x => x.id == o.productId) = some p →
      ∀ x ∈ (addOrder cid o db).products, (x.id == o.productId) = false → x ∈ db.products)
  ∧ (∀ (cid : String) (o : Order) (db : DB) (c : Customer),
      db.customers.find? (fun x => x.username == o.customerUsername) = some c →
      ∀ x ∈ (addOrder cid o db).customers, (x.id == c.id) = false → x ∈ db.customers)
  ∧ (∀ (cid : String) (o : Order) (db : DB) (p : Product) (c : Customer),
      o.isFreebie = false →
      db.products.find? (fun x => x.id == o.productId) = some p →
      db.customers.find? (fun x => x.username == o.customerUsername) = some c →
      ∀ x ∈ (addOrder cid o db).bales, (x.id == p.baleBatch) = false → x ∈ db.bales) := by
  refine ⟨addOrder_orders, addOrder_products_freebie, addOrder_products_nonfreebie,
    ?_, addOrder_customers_found, addOrder_bales_nonfreebie, ?_, ?_, ?_⟩
  · intro cid o db p hf hb
    rw [addOrder_products_nonfreebie cid o db p hf hb]
    rw [find?_updateFirst (fun x => x.id == o.productId)
      (fun q => { q with stock := q.stock - o.quantity }) (fun x hx => hx) db.products, hb]
    rfl
  · intro cid o db p hf hb x hx hpx
    rw [addOrder_products_nonfreebie cid o db p hf hb] at hx
    exact mem_of_mem_updateFirst_not (fun q => q.id == o.productId)
      (fun q => { q with stock := q.stock - o.quantity }) (fun y hy => hy)
      db.products x hx hpx
  · intro cid o db c hc x hx hpx
    rw [addOrder_customers_found cid o db c hc] at hx
    refine mem_of_mem_updateFirst_not _ _ (fun y hy => ?_) db.customers x hx hpx
    simp
  · intro cid o db p c hf hb hc x hx hpx
    rw [addOrder_bales_nonfreebie cid o db p c hf hb hc] at hx
    exact mem_of_mem_updateFirst_not (fun b => b.id == p.baleBatch)
      (fun b => { b with
          status := autoStatus b.status (soldCountFor (dbAfterAdd o db) p.baleBatch) b.itemCount })
      (fun y hy => hy) db.bales x hx hpx

/-- C7 witness: on the concrete store dbC2, adding a non-freebie order of
quantity 2 and price 0 for product p1 leaves stock 1 (3 - 2), appends the
order row, bumps ana's orderCount from 2 to 4, and the bale's status is
recomputed by refreshBaleStatus; a freebie add leaves the stock at 3. -/
theorem C7_witness :
    ((addOrder "cX" { orderC2 with id := "o2" } dbC2).products.map (fun p => p.stock) = [1])
  ∧ ((addOrder "cX" { orderC2 with id := "o2" } dbC2).orders.map (fun o => o.id)
        = ["o1", "o2"])
  ∧ ((addOrder "cX" { orderC2 with id := "o2" } dbC2).customers.map (fun c => c.orderCount)
        = [4])
  ∧ ((addOrder "cX" { orderC2 with id := "o2", isFreebie := true } dbC2).products.map
        (fun p => p.stock) = [3]) := by
  refine ⟨?_, ?_, ?_, ?_⟩
  · rw [C7_addOrder_effects.2.2.1 "cX" { orderC2 with id := "o2" } dbC2 prodC2
      (by decide) (by decide)]
    decide
  · rw [C7_addOrder_effects.1 "cX" { orderC2 with id := "o2" } dbC2]
    decide
  · rw [C7_addOrder_effects.2.2.2.2.1 "cX" { orderC2 with id := "o2" } dbC2 custC2
      (by decide)]
    decide
  · rw [C7_addOrder_effects.2.1 "cX" { orderC2 with id := "o2", isFreebie := true } dbC2
      (by decide)]
    decide

/-! ### Claim C10: customer aggregates never decrease -/

/-- C10: updateOrder and deleteOrder never touch the customer list at all
(so no shipping-status transition, Cancelled/RTS included, and no deletion
ever lowers totalSpent or orderCount); addOrder, for a non-negative quantity
and totalPrice, maps every stored customer to one with the same id and
totals at least as large. -/
theorem C10_customer_totals_monotone :
    (∀ (o : Order) (db : DB), (updateOrder o db).customers = db.customers)
  ∧ (∀ (id : String) (db : DB), (deleteOrder id db).customers = db.customers)
  ∧ (∀ (cid : String) (o : Order) (db : DB) (c : Customer),
      (db.customers.map (fun x => x.id)).Nodup →
      db.customers.find? (fun x => x.username == o.customerUsername) = some c →
      0 ≤ o.quantity → 0 ≤ o.totalPrice →
      ∀ x ∈ db.customers, ∃ y ∈ (addOrder cid o db).customers,
        y.id = x.id ∧ x.totalSpent ≤ y.totalSpent ∧ x.orderCount ≤ y.orderCount) := by
  refine ⟨updateOrder_customers, deleteOrder_customers, ?_⟩
  intro cid o db c hnd hc hq hp x hx
  rw [addOrder_customers_found cid o db c hc]
  by_cases hpx : (x.id == c.id) = true
  · have hxid : x.id = c.id := by simpa using hpx
    have hcmem : c ∈ db.customers := List.mem_of_find?_eq_some hc
    have hxc : x = c := List.inj_on_of_nodup_map hnd hx hcmem hxid
    refine ⟨{ c with
        orderCount := c.orderCount + o.quantity,
        totalSpent := c.totalSpent + o.totalPrice }, ?_, ?_, ?_, ?_⟩
    · have hfind := find?_of_nodup_ids db.customers c hnd hcmem
      exact mem_updateFirst_target _ _ db.customers c hfind
    · rw [hxid]
    · rw [hxc]; simpa using hp
    · rw [hxc]; simpa using hq
  · have hpx' : (x.id == c.id) = false := Bool.eq_false_iff.mpr hpx
    exact ⟨x, mem_updateFirst_of_not _ _ db.customers x hx hpx', rfl, le_refl _, le_refl _⟩

/-- C10 witness: on the concrete store dbC2, cancelling or deleting order o1
leaves ana's aggregates exactly as stored, and adding an order of quantity 2
raises her orderCount from 2 to 4. -/
theorem C10_witness :
    ((updateOrder { orderC2 with shippingStatus := ShippingStatus.cancelled } dbC2).customers
        = dbC2.customers)
  ∧ ((deleteOrder "o1" dbC2).customers = dbC2.customers)
  ∧ (∃ y ∈ (addOrder "cX" { orderC2 with id := "o2" } dbC2).customers,
        y.id = custC2.id ∧ custC2.totalSpent ≤ y.totalSpent
          ∧ custC2.orderCount ≤ y.orderCount) := by
  refine ⟨C10_customer_totals_monotone.1 _ dbC2, C10_customer_totals_monotone.2.1 "o1" dbC2, ?_⟩
  exact C10_customer_totals_monotone.2.2 "cX" { orderC2 with id := "o2" } dbC2 custC2
    (by decide) (by decide) (by decide) (by norm_num [orderC2]) custC2 (by decide)

/-! ### Claim C3: grouped-edit propagation -/

/-- A stored constituent order row of total price 100 for the C3 analysis. -/
def orderC3 : Order :=
  { id := "o1", sessionId := "s1", customerId := "c1", customerUsername := "ana",
    productId := "p1", productName := "Item", quantity := 1, totalPrice := 100,
    isFreebie := false, paymentStatus := PaymentStatus.unpaid,
    shippingStatus := ShippingStatus.pending, paymentMethod := none,
    referenceNumber := none, amountPaid := 0, createdAt := 0,
    usedVipTicket := false, logs := [] }

/-- A grouped edit selecting Partial with tendered aggregate 100 over the
single constituent of total 100. -/
def updC3 : GroupedUpdate :=
  { paymentStatus := PaymentStatus.partpaid, shippingStatus := ShippingStatus.pending,
    paymentMethod := none, referenceNumber := none, amountPaid := 100,
    items := [orderC3], ids := ["o1"] }

/-- C3 counterexample: saving the grouped edit updC3 gives the constituent
amountPaid 100 = its totalPrice (ratio 1), yet its stored paymentStatus is
Partial — copied from the group — while the claim's per-item rule (within
0.01 of the total means Paid) would say Paid.  The per-item decision only
exists on the checkout path, not on the grouped-edit save path. -/
theorem C3_counterexample :
    (handleUpdateOrder updC3 none orderC3).amountPaid = 100
  ∧ (handleUpdateOrder updC3 none orderC3).paymentStatus = PaymentStatus.partpaid
  ∧ specPerItemStatus (handleUpdateOrder updC3 none orderC3).amountPaid orderC3.totalPrice
      = PaymentStatus.paid
  ∧ PaymentStatus.partpaid ≠ PaymentStatus.paid := by
  have hamt : (handleUpdateOrder updC3 none orderC3).amountPaid = 100 := by
    show (if updC3.paymentStatus = PaymentStatus.paid then orderC3.totalPrice
      else if updC3.paymentStatus = PaymentStatus.unpaid then 0
      else
        orderC3.totalPrice *
          (if ((updC3.items.map (fun i => i.totalPrice)).sum > 0)
           then updC3.amountPaid / (updC3.items.map (fun i => i.totalPrice)).sum else 0)) = 100
    norm_num [updC3, orderC3]
    decide
  refine ⟨hamt, rfl, ?_, by decide⟩
  rw [hamt]
  show (if (100 : ℚ) ≥ 100 - 1 / 100 then PaymentStatus.paid
    else if (100 : ℚ) = 0 then PaymentStatus.unpaid else PaymentStatus.partpaid)
      = PaymentStatus.paid
  norm_num

/-- C3 (amended): on the grouped-edit save path, Paid sets each
constituent's amountPaid to its own totalPrice, Unpaid sets 0, and Partial
distributes the entered aggregate proportionally (itemPaid = itemTotal *
aggregatePaid / aggregateTotal, 0 when the aggregate total is not positive);
but every constituent's stored paymentStatus is simply the group's edited
status.  The claimed per-item ±0.01 rule is what the checkout path does:
for a non-freebie item with a payment method chosen and a positive final
total, the line's amountPaid is its proportional share of the tendered
amount and its status is Paid when within 1/100 of the line total, Partial
when positive, Unpaid otherwise. -/
theorem C3_group_edit_propagation :
    (∀ (u : GroupedUpdate) (log : Option String) (orig : Order),
        u.paymentStatus = PaymentStatus.paid →
        (handleUpdateOrder u log orig).amountPaid = orig.totalPrice)
  ∧ (∀ (u : GroupedUpdate) (log : Option String) (orig : Order),
        u.paymentStatus = PaymentStatus.unpaid →
        (handleUpdateOrder u log orig).amountPaid = 0)
  ∧ (∀ (u : GroupedUpdate) (log : Option String) (orig : Order),
        u.paymentStatus = PaymentStatus.partpaid →
        (handleUpdateOrder u log orig).amountPaid
          = orig.totalPrice *
              (if (u.items.map (fun i => i.totalPrice)).sum > 0
               then u.amountPaid / (u.items.map (fun i => i.totalPrice)).sum else 0))
  ∧ (∀ (u : GroupedUpdate) (log : Option String) (orig : Order),
        (handleUpdateOrder u log orig).paymentStatus = u.paymentStatus)
  ∧ (∀ (env : CheckoutEnv) (cart : List CartItem) (item : CartItem),
        item.isFreebie = false → env.txPaymentMethod.isSome = true →
        0 < finalTotalOf env.useVipTicket env.vipDiscountType env.vipDiscount (cartTotal cart) →
        itemAmountPaid env cart item
          = (finalItemTotal env cart item
              / finalTotalOf env.useVipTicket env.vipDiscountType env.vipDiscount (cartTotal cart))
            * env.txAmountPaid.getD 0
        ∧ itemPaymentStatus env cart item
          = (if itemAmountPaid env cart item ≥ finalItemTotal env cart item - 1 / 100
             then PaymentStatus.paid
             else if itemAmountPaid env cart item > 0 then PaymentStatus.partpaid
             else PaymentStatus.unpaid)) := by
  refine ⟨?_, ?_, ?_, fun u log orig => rfl, ?_⟩
  · intro u log orig h
    unfold handleUpdateOrder
    simp only [h, if_true]
  · intro u log orig h
    unfold handleUpdateOrder
    simp [h]
  · intro u log orig h
    unfold handleUpdateOrder
    simp [h]
  · intro env cart item hf hm hfin
    constructor
    · unfold itemAmountPaid
      simp only [hf, hm, Bool.false_eq_true, if_false, if_true, if_pos hfin]
    · unfold itemPaymentStatus
      simp only [hf, hm, Bool.false_eq_true, if_false, if_true]

/-- The other constituent of the C3 witness group, of total price 100. -/
def orderC3b : Order := { orderC3 with id := "o2" }

/-- A grouped edit selecting Partial with tendered aggregate 100 over two
constituents of total 100 each (aggregate total 200). -/
def updC3b : GroupedUpdate :=
  { paymentStatus := PaymentStatus.partpaid, shippingStatus := ShippingStatus.pending,
    paymentMethod := none, referenceNumber := none, amountPaid := 100,
    items := [orderC3, orderC3b], ids := ["o1", "o2"] }

/-- C3 witness: under the amended rule, the Partial edit updC3b gives each
constituent of total 100 an amountPaid of 100 * (100 / 200) = 50 and the
group's Partial status. -/
theorem C3_witness :
    (handleUpdateOrder updC3b none orderC3).amountPaid = 50
  ∧ (handleUpdateOrder updC3b none orderC3).paymentStatus = PaymentStatus.partpaid := by
  constructor
  · rw [C3_group_edit_propagation.2.2.1 updC3b none orderC3 rfl]
    norm_num [updC3b, orderC3, orderC3b]
  · exact C3_group_edit_propagation.2.2.2.1 updC3b none orderC3

/-! ### Claim C5: out-of-stock blocks the add -/

theorem getBaleStats_found (db : DB) (cart : List CartItem) (baleId : String) (bale : Bale)
    (hb : db.bales.find? (fun b => b.id == baleId) = some bale) :
    (getBaleStats db cart baleId).remaining
        = max 0 (bale.itemCount - (getBaleStats db cart baleId).sold)
    ∧ (getBaleStats db cart baleId).total = bale.itemCount := by
  unfold getBaleStats
  rw [hb]
  exact ⟨rfl, rfl⟩

theorem getBaleStats_sold (db : DB) (cart : List CartItem) (baleId : String) (bale : Bale)
    (hb : db.bales.find? (fun b => b.id == baleId) = some bale) :
    (getBaleStats db cart baleId).sold
      = (getBaleStats db [] baleId).sold
        + ((cart.filter (fun i => i.baleId == baleId)).map (fun i => i.quantity)).sum := by
  unfold getBaleStats
  rw [hb]
  simp

/-- C5: with the customer not blacklisted and a batch selected, when the
bale's capacity net of orders already stored and of the current cart is
exhausted (itemCount - sold ≤ 0, sold counting both), addToCart leaves the
cart untouched and surfaces the out-of-stock payload carrying the bale's
name, its total itemCount, and the combined sold count. -/
theorem C5_out_of_stock_blocks :
    ∀ (db : DB) (cart : List CartItem) (baleId newId : String) (bale : Bale)
      (inputPrice : ℚ) (isFreebie : Bool),
      (baleId == "") = false →
      db.bales.find? (fun b => b.id == baleId) = some bale →
      bale.itemCount - (getBaleStats db cart baleId).sold ≤ 0 →
      (addToCart db false baleId cart newId inputPrice isFreebie).cart = cart
      ∧ (addToCart db false baleId cart newId inputPrice isFreebie).oosModal
          = some (bale.name, bale.itemCount, (getBaleStats db cart baleId).sold) := by
  intro db cart baleId newId bale inputPrice isFreebie h1 hb hcap
  have hrem : (getBaleStats db cart baleId).remaining ≤ 0 := by
    rw [(getBaleStats_found db cart baleId bale hb).1]
    exact max_le le_rfl hcap
  unfold addToCart
  simp only [Bool.false_eq_true, if_false, h1, if_pos hrem, hb, Option.map_some',
    Option.getD_some]
  exact ⟨trivial, by rw [(getBaleStats_found db cart baleId bale hb).2]⟩

/-- A cart holding three items of bale b1, exactly exhausting dbC2's bale
capacity together with the two already-ordered items. -/
def cartC5 : List CartItem :=
  [{ id := "k1", price := 100, quantity := 3, isFreebie := false, baleId := "b1" }]

/-- C5 witness: on dbC2 (2 of 5 items sold) with 3 more in the cart,
adding one further item of price 100 is blocked: the cart is unchanged and
the out-of-stock payload names Bale 1 with 5 sold of 5. -/
theorem C5_witness :
    (addToCart dbC2 false "b1" cartC5 "k2" 100 false).cart = cartC5
  ∧ (addToCart dbC2 false "b1" cartC5 "k2" 100 false).oosModal = some ("Bale 1", 5, 5) := by
  have h := C5_out_of_stock_blocks dbC2 cartC5 "b1" "k2"
    { id := "b1", name := "Bale 1", status := BaleStatus.onSale, cost := 0, itemCount := 5 }
    100 false (by decide) (by decide) (by decide)
  refine ⟨h.1, ?_⟩
  rw [h.2]
  decide

/-! ### Claim C6: cart-line consolidation and one order per line -/

theorem addToCart_success (db : DB) (cart : List CartItem) (b newId : String) (bale : Bale)
    (p : ℚ) (fb : Bool)
    (h1 : (b == "") = false)
    (hb : db.bales.find? (fun x => x.id == b) = some bale)
    (hrem : 0 < (getBaleStats db cart b).remaining) :
    addToCart db false b cart newId p fb
      = { cart := cartAdd newId (if fb then 0 else p) fb b cart,
          oosModal := none, feedback := none } := by
  unfold addToCart
  simp only [Bool.false_eq_true, if_false, h1]
  rw [if_neg (not_le.mpr hrem)]

theorem cartAdd_found (newId : String) (p : ℚ) (fb : Bool) (b : String)
    (cart : List CartItem) (item : CartItem)
    (h : cart.find? (fun i => decide (i.price = p) && (i.isFreebie == fb) && (i.baleId == b))
        = some item) :
    cartAdd newId p fb b cart
      = { item with quantity := item.quantity + 1 }
        :: removeFirst (fun i => decide (i.price = p) && (i.isFreebie == fb) && (i.baleId == b))
             cart := by
  unfold cartAdd
  rw [h]

theorem cartAdd_not_found (newId : String) (p : ℚ) (fb : Bool) (b : String)
    (cart : List CartItem)
    (h : cart.find? (fun i => decide (i.price = p) && (i.isFreebie == fb) && (i.baleId == b))
        = none) :
    cartAdd newId p fb b cart
      = { id := newId, price := p, quantity := 1, isFreebie := fb, baleId := b } :: cart := by
  unfold cartAdd
  rw [h]

theorem cartAdd_single_match (newId : String) (p : ℚ) (fb : Bool) (b : String) (item : CartItem)
    (hm : (decide (item.price = p) && (item.isFreebie == fb) && (item.baleId == b)) = true) :
    cartAdd newId p fb b [item] = [{ item with quantity := item.quantity + 1 }] := by
  rw [cartAdd_found newId p fb b [item] item (List.find?_cons_of_pos _ hm)]
  simp [removeFirst, hm]

theorem checkout_foldl_orders (env : CheckoutEnv) (cid0 freshCid : String)
    (cart : List CartItem) :
    ∀ (l : List (ℕ × CartItem)) (d : DB),
      (l.foldl (fun d pair =>
          addOrder freshCid (checkoutOrder env cid0 cart pair.1 pair.2)
            (updateProduct (checkoutProduct env cart pair.2) d)) d).orders
        = d.orders ++ l.map (fun pair => checkoutOrder env cid0 cart pair.1 pair.2) := by
  intro l
  induction l with
  | nil => intro d; simp
  | cons x rest ih =>
    intro d
    rw [List.foldl_cons, ih, addOrder_orders, updateProduct_orders]
    simp

theorem handleCheckout_orders (env : CheckoutEnv) (cart : List CartItem)
    (freshCid : String) (db : DB) (c : Customer)
    (hc : db.customers.find? (fun x => x.username == env.username) = some c)
    (hbl : c.isBlacklisted = false)
    (hfx : ¬(env.useVipTicket ∧ env.vipDiscountType = DiscountType.fixed
          ∧ env.vipDiscount > cartTotal cart))
    (htk : env.useVipTicket = true → 0 < c.vipTickets) :
    (handleCheckout env cart freshCid db).orders
      = db.orders ++ cart.enum.map (fun pair => checkoutOrder env c.id cart pair.1 pair.2) := by
  unfold handleCheckout
  rw [getOrCreateCustomer_found _ _ _ _ hc]
  simp only [hbl, Bool.false_eq_true, if_false]
  rw [if_neg hfx, if_neg (fun hand => hand.2 (htk hand.1))]
  rw [checkout_foldl_orders]
  cases hv : env.useVipTicket
  · simp only [hv, Bool.false_eq_true, if_false]
  · simp only [hv, if_true]
    rw [updateCustomer_orders]

/-- C6: a successful addToCart (batch selected, customer not restricted,
remaining capacity positive) rewrites the cart exactly by cartAdd and raises
no modal; cartAdd increments the first line matching price, freebie flag and
bale id (moving it to the front and dropping its old position) and appends
a fresh line when none matches; consequently three successful adds of the
same price to the same bale starting from an empty cart produce the single
line of quantity 3 and cart total 3 * price; and checkout commits exactly
one Order row per cart line, in cart order. -/
theorem C6_cart_consolidation :
    (∀ (db : DB) (cart : List CartItem) (b newId : String) (bale : Bale) (p : ℚ) (fb : Bool),
      (b == "") = false →
      db.bales.find? (fun x => x.id == b) = some bale →
      0 < (getBaleStats db cart b).remaining →
      addToCart db false b cart newId p fb
        = { cart := cartAdd newId (if fb then 0 else p) fb b cart,
            oosModal := none, feedback := none })
  ∧ (∀ (newId : String) (p : ℚ) (fb : Bool) (b : String) (cart : List CartItem)
        (item : CartItem),
      cart.find? (fun i => decide (i.price = p) && (i.isFreebie == fb) && (i.baleId == b))
          = some item →
      cartAdd newId p fb b cart
        = { item with quantity := item.quantity + 1 }
          :: removeFirst
               (fun i => decide (i.price = p) && (i.isFreebie == fb) && (i.baleId == b)) cart)
  ∧ (∀ (newId : String) (p : ℚ) (fb : Bool) (b : String) (cart : List CartItem),
      cart.find? (fun i => decide (i.price = p) && (i.isFreebie == fb) && (i.baleId == b))
          = none →
      cartAdd newId p fb b cart
        = { id := newId, price := p, quantity := 1, isFreebie := fb, baleId := b } :: cart)
  ∧ (∀ (db : DB) (b n1 n2 n3 : String) (p : ℚ) (bale : Bale),
      (b == "") = false →
      db.bales.find? (fun x => x.id == b) = some bale →
      (getBaleStats db [] b).sold + 3 ≤ bale.itemCount →
      (addToCart db false b
          ((addToCart db false b
              ((addToCart db false b [] n1 p false).cart) n2 p false).cart) n3 p false).cart
        = [{ id := n1, price := p, quantity := 3, isFreebie := false, baleId := b }]
      ∧ cartTotal [{ id := n1, price := p, quantity := 3, isFreebie := false, baleId := b }]
          = 3 * p)
  ∧ (∀ (env : CheckoutEnv) (cart : List CartItem) (freshCid : String) (db : DB) (c : Customer),
      db.customers.find? (fun x => x.username == env.username) = some c →
      c.isBlacklisted = false →
      ¬(env.useVipTicket ∧ env.vipDiscountType = DiscountType.fixed
          ∧ env.vipDiscount > cartTotal cart) →
      (env.useVipTicket = true → 0 < c.vipTickets) →
      (handleCheckout env cart freshCid db).orders
        = db.orders ++ cart.enum.map (fun pair => checkoutOrder env c.id cart pair.1 pair.2)) := by
  refine ⟨addToCart_success, cartAdd_found, cartAdd_not_found, ?_, handleCheckout_orders⟩
  intro db b n1 n2 n3 p bale h1 hb h3
  have hrem0 : 0 < (getBaleStats db [] b).remaining := by
    rw [(getBaleStats_found db [] b bale hb).1]
    refine lt_max_iff.mpr (Or.inr ?_)
    omega
  have hc1 : (addToCart db false b [] n1 p false).cart
      = [{ id := n1, price := p, quantity := 1, isFreebie := false, baleId := b }] := by
    rw [addToCart_success db [] b n1 bale p false h1 hb hrem0]
    rw [show (cartAdd n1 (if false then 0 else p) false b []) = cartAdd n1 p false b [] from rfl]
    rw [cartAdd_not_found n1 p false b [] rfl]
  have hs1 : (getBaleStats db
      [{ id := n1, price := p, quantity := 1, isFreebie := false, baleId := b }] b).sold
      = (getBaleStats db [] b).sold + 1 := by
    rw [getBaleStats_sold db _ b bale hb]
    simp
  have hrem1 : 0 < (getBaleStats db
      [{ id := n1, price := p, quantity := 1, isFreebie := false, baleId := b }] b).remaining := by
    rw [(getBaleStats_found db _ b bale hb).1, hs1]
    refine lt_max_iff.mpr (Or.inr ?_)
    omega
  have hc2 : (addToCart db false b
      [{ id := n1, price := p, quantity := 1, isFreebie := false, baleId := b }] n2 p false).cart
      = [{ id := n1, price := p, quantity := 2, isFreebie := false, baleId := b }] := by
    rw [addToCart_success db _ b n2 bale p false h1 hb hrem1]
    rw [show (cartAdd n2 (if false then 0 else p) false b
      [{ id := n1, price := p, quantity := 1, isFreebie := false, baleId := b }])
      = cartAdd n2 p false b
        [{ id := n1, price := p, quantity := 1, isFreebie := false, baleId := b }] from rfl]
    rw [cartAdd_single_match n2 p false b _ (by simp)]
    simp
  have hs2 : (getBaleStats db
      [{ id := n1, price := p, quantity := 2, isFreebie := false, baleId := b }] b).sold
      = (getBaleStats db [] b).sold + 2 := by
    rw [getBaleStats_sold db _ b bale hb]
    simp
  have hrem2 : 0 < (getBaleStats db
      [{ id := n1, price := p, quantity := 2, isFreebie := false, baleId := b }] b).remaining := by
    rw [(getBaleStats_found db _ b bale hb).1, hs2]
    refine lt_max_iff.mpr (Or.inr ?_)
    omega
  have hc3 : (addToCart db false b
      [{ id := n1, price := p, quantity := 2, isFreebie := false, baleId := b }] n3 p false).cart
      = [{ id := n1, price := p, quantity := 3, isFreebie := false, baleId := b }] := by
    rw [addToCart_success db _ b n3 bale p false h1 hb hrem2]
    rw [show (cartAdd n3 (if false then 0 else p) false b
      [{ id := n1, price := p, quantity := 2, isFreebie := false, baleId := b }])
      = cartAdd n3 p false b
        [{ id := n1, price := p, quantity := 2, isFreebie := false, baleId := b }] from rfl]
    rw [cartAdd_single_match n3 p false b _ (by simp)]
    simp
  rw [hc1, hc2, hc3]
  refine ⟨rfl, ?_⟩
  unfold cartTotal
  simp
  ring

/-- C6 witness: on dbC2 (bale of 5 with 2 sold), three adds of price 100
from an empty cart give the single consolidated line of quantity 3 with
cart total 300. -/
theorem C6_witness :
    (addToCart dbC2 false "b1"
        ((addToCart dbC2 false "b1"
            ((addToCart dbC2 false "b1" [] "k1" 100 false).cart) "k2" 100 false).cart)
        "k3" 100 false).cart
      = [{ id := "k1", price := 100, quantity := 3, isFreebie := false, baleId := "b1" }]
  ∧ cartTotal [{ id := "k1", price := 100, quantity := 3, isFreebie := false, baleId := "b1" }]
      = 300 := by
  have h := C6_cart_consolidation.2.2.2.1 dbC2 "b1" "k1" "k2" "k3" 100
    { id := "b1", name := "Bale 1", status := BaleStatus.onSale, cost := 0, itemCount := 5 }
    (by decide) (by decide) (by decide)
  refine ⟨h.1, ?_⟩
  rw [h.2]
  norm_num

/-! ### Claim C9: VIP ticket returned exactly once -/

theorem foldl_deleteOrder_customers :
    ∀ (l : List Order) (d : DB),
      (l.foldl (fun d o => deleteOrder o.id d) d).customers = d.customers := by
  intro l
  induction l with
  | nil => intro d; rfl
  | cons o rest ih =>
    intro d
    rw [List.foldl_cons, ih, deleteOrder_customers]

theorem foldl_deleteOrder_orders :
    ∀ (l : List Order) (d : DB),
      (l.foldl (fun d o => deleteOrder o.id d) d).orders
        = d.orders.filter (fun x => !(l.any (fun o => x.id == o.id))) := by
  intro l
  induction l with
  | nil =>
    intro d
    simp
  | cons o rest ih =>
    intro d
    rw [List.foldl_cons, ih, deleteOrder_orders, List.filter_filter]
    refine List.filter_congr ?_
    intro x hx
    simp only [List.any_cons, Bool.not_or]
    rw [Bool.and_comm]

theorem returnTicket_customers (user freshCid : String) (d : DB) (c : Customer)
    (hc : d.customers.find? (fun x => x.username == user) = some c) :
    (updateCustomer { (getOrCreateCustomer user freshCid d).1 with
        vipTickets := (getOrCreateCustomer user freshCid d).1.vipTickets + 1 }
      (getOrCreateCustomer user freshCid d).2).customers
      = updateFirst (fun x => x.id == c.id)
          (fun _ => { c with vipTickets := c.vipTickets + 1 }) d.customers := by
  rw [getOrCreateCustomer_found user freshCid d c hc]
  have hany : (d.customers.any fun x => x.id == c.id) = true := by
    refine List.any_eq_true.mpr ⟨c, List.mem_of_find?_eq_some hc, ?_⟩
    simp
  unfold updateCustomer
  simp only [hany, if_true]

theorem handleManualDelete_customers (sess user freshCid : String) (db : DB) (c : Customer)
    (hc : db.customers.find? (fun x => x.username == user) = some c) :
    (handleManualDelete sess user freshCid db).customers
      = if (db.orders.filter (fun o =>
            (o.sessionId == sess) && (o.customerUsername == user))).any
              (fun o => o.usedVipTicket)
        then updateFirst (fun x => x.id == c.id)
               (fun _ => { c with vipTickets := c.vipTickets + 1 }) db.customers
        else db.customers := by
  unfold handleManualDelete
  cases hv : (db.orders.filter (fun o =>
      (o.sessionId == sess) && (o.customerUsername == user))).any (fun o => o.usedVipTicket)
  · simp only [hv, Bool.false_eq_true, if_false]
    rw [foldl_deleteOrder_customers]
  · simp only [hv, if_true]
    have hc1 : ((db.orders.filter (fun o =>
        (o.sessionId == sess) && (o.customerUsername == user))).foldl
          (fun d o => deleteOrder o.id d) db).customers.find?
            (fun x => x.username == user) = some c := by
      rw [foldl_deleteOrder_customers]
      exact hc
    rw [returnTicket_customers user freshCid _ c hc1, foldl_deleteOrder_customers]

theorem handleEditCustomerDb_customers (sess user freshCid : String) (db : DB) (c : Customer)
    (hc : db.customers.find? (fun x => x.username == user) = some c) :
    (handleEditCustomerDb sess user freshCid db).customers
      = if (db.orders.filter (fun o =>
            (o.sessionId == sess) && (o.customerUsername == user))).any
              (fun o => o.usedVipTicket)
        then updateFirst (fun x => x.id == c.id)
               (fun _ => { c with vipTickets := c.vipTickets + 1 }) db.customers
        else db.customers := by
  unfold handleEditCustomerDb
  cases he : (db.orders.filter (fun o =>
      (o.sessionId == sess) && (o.customerUsername == user))).isEmpty
  · simp only [he, Bool.false_eq_true, if_false]
    cases hv : (db.orders.filter (fun o =>
        (o.sessionId == sess) && (o.customerUsername == user))).any (fun o => o.usedVipTicket)
    · simp only [hv, Bool.false_eq_true, if_false]
      rw [foldl_deleteOrder_customers]
    · simp only [hv, if_true]
      have hc1 : ((db.orders.filter (fun o =>
          (o.sessionId == sess) && (o.customerUsername == user))).foldl
            (fun d o => deleteOrder o.id d) db).customers.find?
              (fun x => x.username == user) = some c := by
        rw [foldl_deleteOrder_customers]
        exact hc
      rw [returnTicket_customers user freshCid _ c hc1, foldl_deleteOrder_customers]
  · simp only [he, if_true]
    have hnil : db.orders.filter (fun o =>
        (o.sessionId == sess) && (o.customerUsername == user)) = [] :=
      List.isEmpty_iff.mp he
    rw [hnil]
    simp

theorem handleEditCustomerDb_of_empty (sess user f : String) (d : DB)
    (h : d.orders.filter (fun o =>
        (o.sessionId == sess) && (o.customerUsername == user)) = []) :
    handleEditCustomerDb sess user f d = d := by
  unfold handleEditCustomerDb
  rw [h]
  rfl

theorem handleEditCustomerDb_orders_empty (sess user f : String) (db : DB) :
    (handleEditCustomerDb sess user f db).orders.filter (fun o =>
        (o.sessionId == sess) && (o.customerUsername == user)) = [] := by
  unfold handleEditCustomerDb
  cases he : (db.orders.filter (fun o =>
      (o.sessionId == sess) && (o.customerUsername == user))).isEmpty
  · simp only [he, Bool.false_eq_true, if_false]
    cases hv : (db.orders.filter (fun o =>
        (o.sessionId == sess) && (o.customerUsername == user))).any (fun o => o.usedVipTicket)
    all_goals
      simp only [hv, Bool.false_eq_true, if_false, if_true]
    case' true =>
      rw [updateCustomer_orders, getOrCreateCustomer_orders]
    all_goals
      rw [foldl_deleteOrder_orders]
      refine List.filter_eq_nil_iff.mpr ?_
      intro x hx hpx
      have hx1 := (List.mem_filter.mp hx).1
      have hx2 := (List.mem_filter.mp hx).2
      have hxin : x ∈ db.orders.filter (fun o =>
          (o.sessionId == sess) && (o.customerUsername == user)) :=
        List.mem_filter.mpr ⟨hx1, hpx⟩
      have : (db.orders.filter (fun o =>
          (o.sessionId == sess) && (o.customerUsername == user))).any
            (fun o => x.id == o.id) = true :=
        List.any_eq_true.mpr ⟨x, hxin, by simp⟩
      rw [this] at hx2
      cases hx2
  · simp only [he, if_true]
    exact List.isEmpty_iff.mp he

theorem handleCheckout_empty_ticket (env : CheckoutEnv) (freshCid : String) (db : DB)
    (c : Customer)
    (hc : db.customers.find? (fun x => x.username == env.username) = some c)
    (hbl : c.isBlacklisted = false)
    (hv : env.useVipTicket = true)
    (htk : 0 < c.vipTickets)
    (hfx : ¬(env.vipDiscountType = DiscountType.fixed ∧ env.vipDiscount > cartTotal [])) :
    (handleCheckout env [] freshCid db).customers
      = updateFirst (fun x => x.id == c.id)
          (fun _ => { c with vipTickets := c.vipTickets - 1 }) db.customers := by
  unfold handleCheckout
  rw [getOrCreateCustomer_found _ _ _ _ hc]
  dsimp only
  rw [if_neg (show ¬(c.isBlacklisted = true) by simp [hbl])]
  rw [if_neg (fun hand => hfx ⟨hand.2.1, hand.2.2⟩)]
  rw [if_neg (fun hand => hand.2 htk)]
  rw [if_pos (show env.useVipTicket = true from hv)]
  show (updateCustomer { c with vipTickets := c.vipTickets - 1 } db).customers = _
  have hany : (db.customers.any fun x => x.id == c.id) = true := by
    refine List.any_eq_true.mpr ⟨c, List.mem_of_find?_eq_some hc, ?_⟩
    simp
  unfold updateCustomer
  simp only [hany, if_true]

/-- C9: deleting a customer's session orders returns exactly one VIP ticket
when at least one deleted order used one (the whole group adds a single +1,
never one per order) and none otherwise; the edit unwind does the same;
re-running the edit unwind on the same already-unwound group is the
identity, so the ticket cannot be returned twice; and the checkout of a
ticket-using transaction subtracts exactly one ticket (shown on the empty
cart, where only the ticket step touches the store). -/
theorem C9_vip_ticket_return :
    (∀ (sess user freshCid : String) (db : DB) (c : Customer),
        db.customers.find? (fun x => x.username == user) = some c →
        (handleManualDelete sess user freshCid db).customers
          = if (db.orders.filter (fun o =>
                (o.sessionId == sess) && (o.customerUsername == user))).any
                  (fun o => o.usedVipTicket)
            then updateFirst (fun x => x.id == c.id)
                   (fun _ => { c with vipTickets := c.vipTickets + 1 }) db.customers
            else db.customers)
  ∧ (∀ (sess user freshCid : String) (db : DB) (c : Customer),
        db.customers.find? (fun x => x.username == user) = some c →
        (handleEditCustomerDb sess user freshCid db).customers
          = if (db.orders.filter (fun o =>
                (o.sessionId == sess) && (o.customerUsername == user))).any
                  (fun o => o.usedVipTicket)
            then updateFirst (fun x => x.id == c.id)
                   (fun _ => { c with vipTickets := c.vipTickets + 1 }) db.customers
            else db.customers)
  ∧ (∀ (sess user f1 f2 : String) (db : DB),
        handleEditCustomerDb sess user f2 (handleEditCustomerDb sess user f1 db)
          = handleEditCustomerDb sess user f1 db)
  ∧ (∀ (env : CheckoutEnv) (freshCid : String) (db : DB) (c : Customer),
        db.customers.find? (fun x => x.username == env.username) = some c →
        c.isBlacklisted = false →
        env.useVipTicket = true →
        0 < c.vipTickets →
        ¬(env.vipDiscountType = DiscountType.fixed ∧ env.vipDiscount > cartTotal []) →
        (handleCheckout env [] freshCid db).customers
          = updateFirst (fun x => x.id == c.id)
              (fun _ => { c with vipTickets := c.vipTickets - 1 }) db.customers) := by
  refine ⟨handleManualDelete_customers, handleEditCustomerDb_customers, ?_,
    handleCheckout_empty_ticket⟩
  intro sess user f1 f2 db
  exact handleEditCustomerDb_of_empty sess user f2 _
    (handleEditCustomerDb_orders_empty sess user f1 db)

/-- Two ticket-using orders of the same customer in session s1, plus a
customer holding one ticket, to exercise C9. -/
def orderC9a : Order := { orderC2 with id := "o1", usedVipTicket := true }

def orderC9b : Order := { orderC2 with id := "o2", usedVipTicket := true }

def dbC9 : DB :=
  { products := [prodC2], orders := [orderC9a, orderC9b], customers := [custC2],
    bales := [{ id := "b1", name := "Bale 1", status := BaleStatus.onSale,
                cost := 0, itemCount := 5 }] }

def custC9v : Customer := { custC2 with vipTickets := 1 }

def dbC9v : DB := { dbC9 with customers := [custC9v] }

def envC9 : CheckoutEnv :=
  { sessionId := "s1", username := "ana", transactionNo := "",
    useVipTicket := true, vipDiscountType := DiscountType.noneD, vipDiscount := 0,
    txPaymentMethod := none, txAmountPaid := none, timestamp := 0 }

/-- C9 witness: deleting ana's two ticket-using session orders raises her
tickets from 0 to exactly 1 (not 2); running the edit unwind twice equals
running it once; and an empty-cart ticket checkout lowers her tickets from
1 to 0. -/
theorem C9_witness :
    ((handleManualDelete "s1" "ana" "f" dbC9).customers.map (fun c => c.vipTickets) = [1])
  ∧ (handleEditCustomerDb "s1" "ana" "g" (handleEditCustomerDb "s1" "ana" "f" dbC9)
        = handleEditCustomerDb "s1" "ana" "f" dbC9)
  ∧ ((handleCheckout envC9 [] "f" dbC9v).customers.map (fun c => c.vipTickets) = [0]) := by
  refine ⟨?_, C9_vip_ticket_return.2.2.1 "s1" "ana" "f" "g" dbC9, ?_⟩
  · rw [C9_vip_ticket_return.1 "s1" "ana" "f" dbC9 custC2 (by decide)]
    decide
  · rw [C9_vip_ticket_return.2.2.2 envC9 "f" dbC9v custC9v (by decide) (by decide) rfl
      (by decide) (by decide)]
    decide

/-! ### Claim C8: audit-log encode/decode

The log line built by src/views/Orders.tsx handleSaveClick and parsed back
by LogItem/ChangeRow is modelled over lists of characters (JS string
methods become the list functions below). -/

/-- Push one character onto the first piece of a split result. -/
def consHead (c : Char) : List (List Char) → List (List Char)
  | [] => [[c]]
  | g :: gs => (c :: g) :: gs

/-- Model of JS String.prototype.split(sep) for a non-empty separator,
splitting at every leftmost non-overlapping occurrence; the skip counter
walks over the remaining characters of a just-matched separator. -/
def splitSkip (sep : List Char) : List Char → Nat → List (List Char)
  | [], _ => [[]]
  | _ :: rest, Nat.succ k => splitSkip sep rest k
  | c :: rest, 0 =>
    if sep.isPrefixOf (c :: rest) = true ∧ sep ≠ [] then
      [] :: splitSkip sep rest (sep.length - 1)
    else
      consHead c (splitSkip sep rest 0)

def splitOnL (sep : List Char) (s : List Char) : List (List Char) :=
  splitSkip sep s 0

/-- Model of JS Array.prototype.join(sep). -/
def joinSepL (sep : List Char) : List (List Char) → List Char
  | [] => []
  | [x] => x
  | x :: y :: rest => x ++ sep ++ joinSepL sep (y :: rest)

/-- Whether needle occurs as a contiguous run inside the haystack. -/
def hasSeq (needle : List Char) : List Char → Bool
  | [] => needle.isEmpty
  | c :: rest => needle.isPrefixOf (c :: rest) || hasSeq needle rest

/-- The four field labels the decoder's lookahead knows. -/
def fieldNamesL : List (List Char) :=
  ["Status".data, "Paid".data, "Shipping".data, "Ref".data]

/-- Orders.tsx handleSaveClick: one change is rendered Field: old -> new
(for Paid the peso sign is part of the value strings). -/
def encodeChange (ch : List Char × List Char × List Char) : List Char :=
  ch.1 ++ ": ".data ++ ch.2.1 ++ " -> ".data ++ ch.2.2

/-- Orders.tsx handleSaveClick: the whole log line [timestamp] c1, c2, ... -/
def encodeLog (ts : List Char) (chs : List (List Char × List Char × List Char)) :
    List Char :=
  "[".data ++ ts ++ "] ".data ++ joinSepL ", ".data (chs.map encodeChange)

/-- Orders.tsx LogItem: the header regex match against
[timestamp] content, non-greedy on the timestamp; the dot of the regex does
not cross a newline, so a log line holding one never matches. -/
def parseHeaderL (s : List Char) : Option (List Char × List Char) :=
  match s with
  | [] => none
  | c :: rest =>
    if c = '[' ∧ '\n' ∉ rest then
      match splitOnL ("] ".data) rest with
      | ts :: c2 :: cs => some (ts, joinSepL ("] ".data) (c2 :: cs))
      | _ => none
    else none

/-- Orders.tsx LogItem: whether a split piece starts with a known field
label followed by a colon (the regex lookahead). -/
def startsWithFieldL (s : List Char) : Bool :=
  fieldNamesL.any (fun f => (f ++ ":".data).isPrefixOf s)

/-- Rebuild the comma-split pieces, cutting only before pieces that open
with a known field label: together with splitOnL this is the decoder's
split on the pattern comma-space followed by the field lookahead. -/
def regroupGo (acc : List Char) : List (List Char) → List (List Char)
  | [] => [acc]
  | y :: rest =>
    if startsWithFieldL y then acc :: regroupGo y rest
    else regroupGo (acc ++ ", ".data ++ y) rest

def regroup : List (List Char) → List (List Char)
  | [] => []
  | x :: rest => regroupGo x rest

/-- Orders.tsx LogItem: content.split on comma-space followed by a known
field name. -/
def lookaheadSplitL (content : List Char) : List (List Char) :=
  regroup (splitOnL ", ".data content)

/-- Orders.tsx ChangeRow: split the segment on colon-space, keep the first
piece as the label, rejoin the rest as the values, then split the values on
the arrow into old and new (none when a piece is missing, where the
component renders the raw text instead). -/
def decodeChangeL (change : List Char) : Option (List Char × List Char × List Char) :=
  match splitOnL (": ".data) change with
  | label :: v :: vs =>
    match splitOnL (" -> ".data) (joinSepL (": ".data) (v :: vs)) with
    | oldV :: newV :: _ => some (label, oldV, newV)
    | _ => none
  | _ => none

/-- Orders.tsx LogItem + ChangeRow: the decoded timestamp and change rows of
one log line. -/
def decodeLogL (log : List Char) :
    Option (List Char × List (List Char × List Char × List Char)) :=
  match parseHeaderL log with
  | none => none
  | some (ts, content) => some (ts, (lookaheadSplitL content).filterMap decodeChangeL)

/-- A value string is clean when it avoids the decoder's delimiters: no
comma, no newline, and no arrow. -/
def cleanVal (v : List Char) : Prop :=
  (',' ∉ v) ∧ ('\n' ∉ v) ∧ hasSeq ('-' :: ['>']) v = false

/-! #### Equation and occurrence lemmas for the split model -/

theorem splitSkip_drop (sep : List Char) :
    ∀ (s : List Char) (k : Nat), splitSkip sep s k = splitOnL sep (s.drop k) := by
  intro s
  induction s with
  | nil => intro k; cases k <;> rfl
  | cons c rest ih =>
    intro k
    cases k with
    | zero => rfl
    | succ k => exact ih k

theorem splitOnL_pos (sep : List Char) (c : Char) (rest : List Char)
    (h1 : sep.isPrefixOf (c :: rest) = true) (h2 : sep ≠ []) :
    splitOnL sep (c :: rest) = [] :: splitOnL sep ((c :: rest).drop sep.length) := by
  cases sep with
  | nil => exact absurd rfl h2
  | cons a tail =>
    show splitSkip (a :: tail) (c :: rest) 0 = _
    unfold splitSkip
    rw [if_pos ⟨h1, h2⟩, splitSkip_drop]
    simp

theorem splitOnL_neg (sep : List Char) (c : Char) (rest : List Char)
    (h : ¬(sep.isPrefixOf (c :: rest) = true ∧ sep ≠ [])) :
    splitOnL sep (c :: rest) = consHead c (splitOnL sep rest) := by
  show splitSkip sep (c :: rest) 0 = _
  unfold splitSkip
  rw [if_neg h]
  rfl

theorem consHead_ne_nil (c : Char) (l : List (List Char)) : consHead c l ≠ [] := by
  cases l <;> simp [consHead]

theorem splitOnL_ne_nil (sep : List Char) (s : List Char) : splitOnL sep s ≠ [] := by
  cases s with
  | nil => simp [splitOnL, splitSkip]
  | cons c rest =>
    by_cases h : sep.isPrefixOf (c :: rest) = true ∧ sep ≠ []
    · rw [splitOnL_pos sep c rest h.1 h.2]
      simp
    · rw [splitOnL_neg sep c rest h]
      exact consHead_ne_nil c _

theorem isPrefixOf_append_self (l t : List Char) : l.isPrefixOf (l ++ t) = true := by
  induction l with
  | nil => simp [List.isPrefixOf]
  | cons c cs ih => simp [List.isPrefixOf, ih]

theorem isPrefixOf_append_right (l m n : List Char) (h : m.isPrefixOf n = true) :
    (l ++ m).isPrefixOf (l ++ n) = true := by
  induction l with
  | nil => exact h
  | cons c cs ih => simp [List.isPrefixOf, ih]

theorem eq_append_of_isPrefixOf (p : List Char) :
    ∀ s : List Char, p.isPrefixOf s = true → s = p ++ s.drop p.length := by
  induction p with
  | nil => intro s _; simp
  | cons a as ih =>
    intro s h
    cases s with
    | nil => simp [List.isPrefixOf] at h
    | cons b bs =>
      simp only [List.isPrefixOf, Bool.and_eq_true, beq_iff_eq] at h
      obtain ⟨hab, hrest⟩ := h
      subst hab
      simpa using ih bs hrest

theorem hasSeq_iff (p : List Char) :
    ∀ s, hasSeq p s = true ↔ ∃ l r, s = l ++ p ++ r := by
  intro s
  induction s with
  | nil =>
    simp only [hasSeq, List.isEmpty_iff]
    constructor
    · intro h
      exact ⟨[], [], by simp [h]⟩
    · rintro ⟨l, r, h⟩
      rcases List.append_eq_nil.mp (List.append_eq_nil.mp h.symm).1 with ⟨_, h2⟩
      exact h2
  | cons c rest ih =>
    simp only [hasSeq, Bool.or_eq_true, ih]
    constructor
    · rintro (hp | ⟨l, r, rfl⟩)
      · refine ⟨[], (c :: rest).drop p.length, ?_⟩
        simpa using eq_append_of_isPrefixOf p (c :: rest) hp
      · exact ⟨c :: l, r, by simp⟩
    · rintro ⟨l, r, hl⟩
      cases l with
      | nil =>
        left
        simp only [List.nil_append] at hl
        rw [hl]
        exact isPrefixOf_append_self p r
      | cons x l' =>
        right
        simp only [List.cons_append] at hl
        injection hl with h1 h2
        exact ⟨l', r, h2⟩

theorem hasSeq_of_suffix (p x1 x2 x : List Char)
    (hpre : p.isPrefixOf x2 = true) (hx : x = x1 ++ x2) : hasSeq p x = true := by
  refine (hasSeq_iff p x).mpr ⟨x1, x2.drop p.length, ?_⟩
  rw [hx, eq_append_of_isPrefixOf p x2 hpre]
  simp

theorem not_hasSeq_of_not_mem (a : Char) (r s : List Char) (h : a ∉ s) :
    hasSeq (a :: r) s = false := by
  cases hs : hasSeq (a :: r) s
  · rfl
  · exfalso
    rcases (hasSeq_iff (a :: r) s).mp hs with ⟨l, rr, rfl⟩
    exact h (by simp)

theorem splitOnL_of_not_hasSeq (sep : List Char) (h2 : sep ≠ []) :
    ∀ s, hasSeq sep s = false → splitOnL sep s = [s] := by
  intro s
  induction s with
  | nil => intro _; rfl
  | cons c rest ih =>
    intro h
    have hcases : sep.isPrefixOf (c :: rest) = false ∧ hasSeq sep rest = false := by
      have : (sep.isPrefixOf (c :: rest) || hasSeq sep rest) = false := h
      simpa using this
    rw [splitOnL_neg sep c rest (fun hand => by rw [hcases.1] at hand; cases hand.1)]
    rw [ih hcases.2]
    rfl

theorem splitOnL_append_sep (sep : List Char) (h2 : sep ≠ []) :
    ∀ (x y : List Char),
      (∀ x1 x2, x = x1 ++ x2 → x2 ≠ [] → sep.isPrefixOf (x2 ++ (sep ++ y)) = false) →
      splitOnL sep (x ++ (sep ++ y)) = x :: splitOnL sep y := by
  intro x
  induction x with
  | nil =>
    intro y _
    simp only [List.nil_append]
    cases hsep : sep with
    | nil => exact absurd hsep h2
    | cons a tail =>
      rw [← hsep]
      have hsy : ∃ c rest, sep ++ y = c :: rest := by
        rw [hsep]; exact ⟨a, tail ++ y, by simp⟩
      obtain ⟨c, rest, hcr⟩ := hsy
      rw [hcr]
      rw [splitOnL_pos sep c rest (by rw [← hcr]; exact isPrefixOf_append_self sep y) h2]
      rw [← hcr, List.drop_left]
  | cons c x' ih =>
    intro y hx
    have hp : sep.isPrefixOf ((c :: x') ++ (sep ++ y)) = false :=
      hx [] (c :: x') rfl (by simp)
    have hstep : (c :: x') ++ (sep ++ y) = c :: (x' ++ (sep ++ y)) := by simp
    rw [hstep]
    rw [splitOnL_neg sep c (x' ++ (sep ++ y))
      (fun hand => by rw [← hstep, hp] at hand; cases hand.1)]
    rw [ih y (fun x1 x2 hsplit hne => hx (c :: x1) x2 (by rw [hsplit]; rfl) hne)]
    rfl

theorem joinSepL_splitOnL_aux (sep : List Char) :
    ∀ (n : Nat) (s : List Char), s.length ≤ n →
      joinSepL sep (splitOnL sep s) = s := by
  intro n
  induction n with
  | zero =>
    intro s hs
    have : s = [] := List.eq_nil_of_length_eq_zero (Nat.le_zero.mp hs)
    subst this
    rfl
  | succ n ih =>
    intro s hs
    cases s with
    | nil => rfl
    | cons c rest =>
      by_cases h : sep.isPrefixOf (c :: rest) = true ∧ sep ≠ []
      · rw [splitOnL_pos sep c rest h.1 h.2]
        have hlen : sep.length ≠ 0 := fun h0 => h.2 (List.length_eq_zero.mp h0)
        have hdl : ((c :: rest).drop sep.length).length ≤ n := by
          simp only [List.length_drop, List.length_cons]
          simp only [List.length_cons] at hs
          omega
        have hne := splitOnL_ne_nil sep ((c :: rest).drop sep.length)
        obtain ⟨g, gs, hg⟩ := List.exists_cons_of_ne_nil hne
        rw [hg]
        show sep ++ joinSepL sep (g :: gs) = c :: rest
        rw [← hg, ih _ hdl]
        exact (eq_append_of_isPrefixOf sep (c :: rest) h.1).symm
      · rw [splitOnL_neg sep c rest h]
        have hrest : joinSepL sep (splitOnL sep rest) = rest := by
          refine ih rest ?_
          simp only [List.length_cons] at hs
          omega
        have hne := splitOnL_ne_nil sep rest
        obtain ⟨g, gs, hg⟩ := List.exists_cons_of_ne_nil hne
        rw [hg]
        rw [hg] at hrest
        cases gs with
        | nil =>
          show c :: g = c :: rest
          rw [show g = rest from hrest]
        | cons g2 gs2 =>
          have hrest' : g ++ sep ++ joinSepL sep (g2 :: gs2) = rest := hrest
          show c :: (g ++ sep ++ joinSepL sep (g2 :: gs2)) = c :: rest
          rw [hrest']

theorem joinSepL_splitOnL (sep s : List Char) :
    joinSepL sep (splitOnL sep s) = s :=
  joinSepL_splitOnL_aux sep s.length s le_rfl

theorem no_overlap_headchar (a : Char) (tail x rest2 : List Char) (h : a ∉ x) :
    ∀ x1 x2, x = x1 ++ x2 → x2 ≠ [] →
      (a :: tail).isPrefixOf (x2 ++ rest2) = false := by
  intro x1 x2 hx hne
  cases x2 with
  | nil => exact absurd rfl hne
  | cons c z =>
    have hac : (a == c) = false := by
      refine beq_eq_false_iff_ne.mpr ?_
      intro hcc
      subst hcc
      exact h (by rw [hx]; simp)
    simp [List.isPrefixOf, hac]

theorem no_overlap_twochar (a b : Char) (hab : a ≠ b) (x y : List Char)
    (h : hasSeq [a, b] x = false) :
    ∀ x1 x2, x = x1 ++ x2 → x2 ≠ [] →
      ([a, b]).isPrefixOf (x2 ++ ([a, b] ++ y)) = false := by
  intro x1 x2 hx hne
  cases x2 with
  | nil => exact absurd rfl hne
  | cons c z =>
    cases z with
    | nil =>
      have hba : (b == a) = false := beq_eq_false_iff_ne.mpr (Ne.symm hab)
      simp [List.isPrefixOf, hba]
    | cons c2 z2 =>
      cases hpp : ([a, b]).isPrefixOf ((c :: c2 :: z2) ++ ([a, b] ++ y))
      · rfl
      · exfalso
        have hch : a = c ∧ b = c2 := by
          have := hpp
          simp only [List.cons_append, List.isPrefixOf, Bool.and_eq_true, beq_iff_eq] at this
          exact ⟨this.1, this.2.1⟩
        have hpre : ([a, b]).isPrefixOf (c :: c2 :: z2) = true := by
          rw [hch.1, hch.2]
          simp [List.isPrefixOf]
        rw [hasSeq_of_suffix [a, b] x1 (c :: c2 :: z2) x hpre hx] at h
        cases h

theorem no_overlap_arrow (x y : List Char) (h : hasSeq ('-' :: ['>']) x = false) :
    ∀ x1 x2, x = x1 ++ x2 → x2 ≠ [] →
      ([' ', '-', '>', ' ']).isPrefixOf (x2 ++ ([' ', '-', '>', ' '] ++ y)) = false := by
  intro x1 x2 hx hne
  cases x2 with
  | nil => exact absurd rfl hne
  | cons c1 z1 =>
    cases z1 with
    | nil =>
      have hda : ('-' == ' ') = false := by decide
      simp [List.isPrefixOf, hda]
    | cons c2 z2 =>
      cases z2 with
      | nil =>
        have hga : ('>' == ' ') = false := by decide
        simp [List.isPrefixOf, hga]
      | cons c3 z3 =>
        cases hpp : ([' ', '-', '>', ' ']).isPrefixOf
            ((c1 :: c2 :: c3 :: z3) ++ ([' ', '-', '>', ' '] ++ y))
        · rfl
        · exfalso
          have hch : ' ' = c1 ∧ '-' = c2 ∧ '>' = c3 := by
            have := hpp
            simp only [List.cons_append, List.isPrefixOf, Bool.and_eq_true,
              beq_iff_eq] at this
            exact ⟨this.1, this.2.1, this.2.2.1⟩
          have hpre : ('-' :: ['>']).isPrefixOf (c2 :: c3 :: z3) = true := by
            rw [← hch.2.1, ← hch.2.2]
            simp [List.isPrefixOf]
          have hxx : x = (x1 ++ [c1]) ++ (c2 :: c3 :: z3) := by
            rw [hx]
            simp
          rw [hasSeq_of_suffix ('-' :: ['>']) (x1 ++ [c1]) (c2 :: c3 :: z3) x hpre hxx] at h
          cases h

theorem not_hasSeq_arrow_sep (v : List Char) (h : hasSeq ('-' :: ['>']) v = false) :
    hasSeq [' ', '-', '>', ' '] v = false := by
  cases hs : hasSeq [' ', '-', '>', ' '] v
  · rfl
  · exfalso
    rcases (hasSeq_iff [' ', '-', '>', ' '] v).mp hs with ⟨l, r, rfl⟩
    have : hasSeq ('-' :: ['>']) (l ++ [' ', '-', '>', ' '] ++ r) = true := by
      refine (hasSeq_iff _ _).mpr ⟨l ++ [' '], ' ' :: r, ?_⟩
      simp
    rw [this] at h
    cases h

theorem splitOnL_joinSepL_clean (a : Char) (tail : List Char) :
    ∀ pieces : List (List Char), pieces ≠ [] → (∀ p ∈ pieces, a ∉ p) →
      splitOnL (a :: tail) (joinSepL (a :: tail) pieces) = pieces := by
  intro pieces
  induction pieces with
  | nil => intro hp; exact absurd rfl hp
  | cons p rest ih =>
    intro _ hcl
    cases rest with
    | nil =>
      show splitOnL (a :: tail) p = [p]
      exact splitOnL_of_not_hasSeq _ (by simp) p
        (not_hasSeq_of_not_mem a tail p (hcl p (List.mem_cons_self p [])))
    | cons q rest' =>
      show splitOnL (a :: tail) (p ++ (a :: tail) ++ joinSepL (a :: tail) (q :: rest'))
        = p :: q :: rest'
      rw [List.append_assoc]
      rw [splitOnL_append_sep (a :: tail) (by simp) p (joinSepL (a :: tail) (q :: rest'))
        (no_overlap_headchar a tail p ((a :: tail) ++ joinSepL (a :: tail) (q :: rest'))
          (hcl p (List.mem_cons_self p _)))]
      rw [ih (by simp) (fun z hz => hcl z (List.mem_cons_of_mem p hz))]

theorem regroupGo_all_fields (l : List (List Char)) (hl : ∀ y ∈ l, startsWithFieldL y = true) :
    ∀ acc, regroupGo acc l = acc :: l := by
  induction l with
  | nil => intro acc; rfl
  | cons y rest ih =>
    intro acc
    unfold regroupGo
    rw [if_pos (hl y (List.mem_cons_self y rest))]
    rw [ih (fun z hz => hl z (List.mem_cons_of_mem y hz)) y]

theorem startsWithField_encode (ch : List Char × List Char × List Char)
    (hf : ch.1 ∈ fieldNamesL) : startsWithFieldL (encodeChange ch) = true := by
  refine List.any_eq_true.mpr ⟨ch.1, hf, ?_⟩
  show (ch.1 ++ ":".data).isPrefixOf (encodeChange ch) = true
  unfold encodeChange
  rw [List.append_assoc, List.append_assoc, List.append_assoc]
  refine isPrefixOf_append_right ch.1 (":".data) _ ?_
  simp [List.isPrefixOf]

theorem no_comma_encode (ch : List Char × List Char × List Char)
    (hf : ch.1 ∈ fieldNamesL) (ho : cleanVal ch.2.1) (hn : cleanVal ch.2.2) :
    ',' ∉ encodeChange ch := by
  unfold encodeChange
  intro hmem
  simp only [List.mem_append] at hmem
  rcases hmem with ((((hm | hm) | hm) | hm) | hm)
  · simp only [fieldNamesL, List.mem_cons, List.not_mem_nil, or_false] at hf
    rcases hf with hf | hf | hf | hf <;> (rw [hf] at hm; revert hm; decide)
  · revert hm; decide
  · exact ho.1 hm
  · revert hm; decide
  · exact hn.1 hm

theorem no_nl_encode (ch : List Char × List Char × List Char)
    (hf : ch.1 ∈ fieldNamesL) (ho : cleanVal ch.2.1) (hn : cleanVal ch.2.2) :
    '\n' ∉ encodeChange ch := by
  unfold encodeChange
  intro hmem
  simp only [List.mem_append] at hmem
  rcases hmem with ((((hm | hm) | hm) | hm) | hm)
  · simp only [fieldNamesL, List.mem_cons, List.not_mem_nil, or_false] at hf
    rcases hf with hf | hf | hf | hf <;> (rw [hf] at hm; revert hm; decide)
  · revert hm; decide
  · exact ho.2.1 hm
  · revert hm; decide
  · exact hn.2.1 hm

theorem no_nl_joinSep (sep : List Char) (hsep : '\n' ∉ sep) :
    ∀ pieces : List (List Char), (∀ p ∈ pieces, '\n' ∉ p) →
      '\n' ∉ joinSepL sep pieces := by
  intro pieces
  induction pieces with
  | nil => intro _ hm; cases hm
  | cons p rest ih =>
    intro hall hm
    cases rest with
    | nil => exact hall p (List.mem_cons_self p []) hm
    | cons q rest' =>
      have : '\n' ∈ p ++ sep ++ joinSepL sep (q :: rest') := hm
      simp only [List.mem_append] at this
      rcases this with (hm1 | hm1) | hm1
      · exact hall p (List.mem_cons_self p _) hm1
      · exact hsep hm1
      · exact ih (fun z hz => hall z (List.mem_cons_of_mem p hz)) hm1

theorem decode_encode_change (ch : List Char × List Char × List Char)
    (hf : ch.1 ∈ fieldNamesL) (ho : cleanVal ch.2.1) (hn : cleanVal ch.2.2) :
    decodeChangeL (encodeChange ch) = some ch := by
  obtain ⟨f, o, n⟩ := ch
  have eS : ": ".data = [':', ' '] := by decide
  have eA : " -> ".data = [' ', '-', '>', ' '] := by decide
  unfold decodeChangeL encodeChange
  rw [eS, eA]
  rw [show f ++ [':', ' '] ++ o ++ [' ', '-', '>', ' '] ++ n
      = f ++ ([':', ' '] ++ (o ++ ([' ', '-', '>', ' '] ++ n))) by simp]
  have hforbid : hasSeq [':', ' '] f = false := by
    simp only [fieldNamesL, List.mem_cons, List.not_mem_nil, or_false] at hf
    rcases hf with hf | hf | hf | hf <;> (rw [hf]; decide)
  rw [splitOnL_append_sep [':', ' '] (by decide) f (o ++ ([' ', '-', '>', ' '] ++ n))
    (no_overlap_twochar ':' ' ' (by decide) f (o ++ ([' ', '-', '>', ' '] ++ n)) hforbid)]
  obtain ⟨g, gs, hg⟩ := List.exists_cons_of_ne_nil
    (splitOnL_ne_nil [':', ' '] (o ++ ([' ', '-', '>', ' '] ++ n)))
  rw [hg]
  show (match splitOnL [' ', '-', '>', ' '] (joinSepL [':', ' '] (g :: gs)) with
    | oldV :: newV :: _ => some (f, oldV, newV)
    | _ => none) = some (f, o, n)
  rw [← hg, joinSepL_splitOnL]
  rw [splitOnL_append_sep [' ', '-', '>', ' '] (by decide) o n
    (no_overlap_arrow o n ho.2.2)]
  rw [splitOnL_of_not_hasSeq [' ', '-', '>', ' '] (by decide) n
    (not_hasSeq_arrow_sep n hn.2.2)]

theorem filterMap_decode_encode :
    ∀ chs : List (List Char × List Char × List Char),
      (∀ ch ∈ chs, ch.1 ∈ fieldNamesL ∧ cleanVal ch.2.1 ∧ cleanVal ch.2.2) →
      (chs.map encodeChange).filterMap decodeChangeL = chs := by
  intro chs
  induction chs with
  | nil => intro _; rfl
  | cons ch rest ih =>
    intro h
    rw [List.map_cons]
    have hch := h ch (List.mem_cons_self ch rest)
    rw [List.filterMap_cons_some (decode_encode_change ch hch.1 hch.2.1 hch.2.2)]
    rw [ih (fun z hz => h z (List.mem_cons_of_mem ch hz))]

/-- C8: the audit-log round trip.  Encoding a non-empty change set whose
field labels come from {Status, Paid, Shipping, Ref} and whose rendered
values stay clear of the decoder's delimiters (no comma, no newline, no
arrow in a value; no newline and no bracket-space in the timestamp) and
then decoding the line yields exactly the original timestamp and one change
row per encoded field with the original old/new values. -/
instance cleanVal_dec : DecidablePred cleanVal := fun v => by
  unfold cleanVal
  infer_instance

theorem parseHeaderL_cons (rest : List Char) (h : '\n' ∉ rest) :
    parseHeaderL ('[' :: rest)
      = (match splitOnL ("] ".data) rest with
        | ts :: c2 :: cs => some (ts, joinSepL ("] ".data) (c2 :: cs))
        | _ => none) := by
  show (if '[' = '[' ∧ '\n' ∉ rest then
      match splitOnL ("] ".data) rest with
      | ts :: c2 :: cs => some (ts, joinSepL ("] ".data) (c2 :: cs))
      | _ => none
    else none) = _
  rw [if_pos ⟨rfl, h⟩]

theorem C8_audit_log_roundtrip :
    ∀ (ts : List Char) (chs : List (List Char × List Char × List Char)),
      chs ≠ [] →
      '\n' ∉ ts →
      hasSeq ("] ".data) ts = false →
      (∀ ch ∈ chs, ch.1 ∈ fieldNamesL ∧ cleanVal ch.2.1 ∧ cleanVal ch.2.2) →
      decodeLogL (encodeLog ts chs) = some (ts, chs) := by
  intro ts chs hne hnl hseq hall
  have eB : "] ".data = [']', ' '] := by decide
  have eC : ", ".data = [',', ' '] := by decide
  have e0 : "[".data = ['['] := by decide
  have hnlrest : '\n' ∉ ts ++ ([']', ' '] ++ joinSepL [',', ' '] (chs.map encodeChange)) := by
    intro hm
    simp only [List.mem_append] at hm
    rcases hm with hm | hm | hm
    · exact hnl hm
    · revert hm; decide
    · refine no_nl_joinSep [',', ' '] (by decide) (chs.map encodeChange) ?_ hm
      intro p hp
      obtain ⟨ch, hch, rfl⟩ := List.mem_map.mp hp
      exact no_nl_encode ch (hall ch hch).1 (hall ch hch).2.1 (hall ch hch).2.2
  rw [show encodeLog ts chs
      = '[' :: (ts ++ ([']', ' '] ++ joinSepL [',', ' '] (chs.map encodeChange))) by
    simp [encodeLog, eB, eC, e0]]
  unfold decodeLogL
  rw [parseHeaderL_cons _ hnlrest]
  rw [eB]
  rw [eB] at hseq
  rw [splitOnL_append_sep [']', ' '] (by decide) ts
    (joinSepL [',', ' '] (chs.map encodeChange))
    (no_overlap_twochar ']' ' ' (by decide) ts _ hseq)]
  obtain ⟨g, gs, hg⟩ := List.exists_cons_of_ne_nil
    (splitOnL_ne_nil [']', ' '] (joinSepL [',', ' '] (chs.map encodeChange)))
  rw [hg]
  show some (ts, (lookaheadSplitL (joinSepL [']', ' '] (g :: gs))).filterMap decodeChangeL)
      = some (ts, chs)
  rw [← hg, joinSepL_splitOnL]
  unfold lookaheadSplitL
  rw [eC]
  rw [splitOnL_joinSepL_clean ',' [' '] (chs.map encodeChange)
    (by simpa using hne)
    (fun p hp => by
      obtain ⟨ch, hch, rfl⟩ := List.mem_map.mp hp
      exact no_comma_encode ch (hall ch hch).1 (hall ch hch).2.1 (hall ch hch).2.2)]
  obtain ⟨ch1, chrest, rfl⟩ := List.exists_cons_of_ne_nil hne
  rw [List.map_cons]
  show some (ts, (regroupGo (encodeChange ch1) (chrest.map encodeChange)).filterMap
      decodeChangeL) = some (ts, ch1 :: chrest)
  rw [regroupGo_all_fields (chrest.map encodeChange)
    (fun y hy => by
      obtain ⟨ch, hch, rfl⟩ := List.mem_map.mp hy
      exact startsWithField_encode ch (hall ch (List.mem_cons_of_mem ch1 hch)).1)
    (encodeChange ch1)]
  rw [show (encodeChange ch1 :: chrest.map encodeChange)
      = (ch1 :: chrest).map encodeChange by rw [List.map_cons]]
  rw [filterMap_decode_encode (ch1 :: chrest) hall]

/-- C8 witness: the claim's example, with the peso sign on the Paid values
as handleSaveClick renders them and a timestamp containing a comma:
encoding Status: Unpaid to Paid together with Paid: 0 to 500 and decoding
the line yields exactly those two change rows and the timestamp. -/
theorem C8_witness :
    decodeLogL (encodeLog "1/1/2025, 10:00 AM".data
      [("Status".data, "Unpaid".data, "Paid".data),
       ("Paid".data, "₱0".data, "₱500".data)])
      = some ("1/1/2025, 10:00 AM".data,
          [("Status".data, "Unpaid".data, "Paid".data),
           ("Paid".data, "₱0".data, "₱500".data)]) :=
  C8_audit_log_roundtrip "1/1/2025, 10:00 AM".data
    [("Status".data, "Unpaid".data, "Paid".data),
     ("Paid".data, "₱0".data, "₱500".data)]
    (by decide) (by decide) (by decide) (by decide)

end Paw
